import Mathlib

/-!
Verification development for the queue service of the AI-Invoice-OCR backend
(`backend/src/services/queueService.js`, the only file with real logic).

The service is embedded shallowly:

* JSON-like runtime values are modelled by `JVal`.  JavaScript arrays are
  objects and can carry named properties next to their elements, so `jarr`
  carries an extra association list `props` (always empty for values parsed
  from JSON).  `Buffer` values are modelled by `jbuf` (always truthy).
* Property reads that can raise a `TypeError` (reads on `null`) are modelled
  in `Except Unit`; reads that are statically on non-null values use the
  total `getRaw`.  Property writes on primitives are silent no-ops because
  the module is CommonJS sloppy-mode code.
* `Date.now()` and `new Date().toISOString()` are abstracted into explicit
  parameters (`nowMs`, `today`, and the `Clock` structure): each run of the
  normalizer synthesizes at most one placeholder per field, so a single
  parameter per kind is exact.
* Network calls are abstracted by an `Oracle` telling which attempt succeeds
  and with which payload; the orchestration records the list of issued calls.
-/

namespace QueueService

/-- JavaScript runtime values as delivered by `axios` (parsed JSON) plus the
`Buffer` objects held in the status map.  `jarr` models a JS array: `elems`
are the indexed entries, `props` the named own properties (empty for any
value that came out of `JSON.parse`). -/
inductive JVal where
  | jnull
  | jbool (b : Bool)
  | jnum (n : Int)
  | jstr (s : String)
  | jarr (elems : List JVal) (props : List (String × JVal))
  | jobj (fields : List (String × JVal))
  | jbuf (size : Nat)

open JVal

/-- JavaScript truthiness: `null`, `false`, `0` and `""` are falsy; arrays,
plain objects and Buffers are always truthy. -/
def truthy : JVal → Bool
  | jnull => false
  | jbool b => b
  | jnum n => n != 0
  | jstr s => !s.isEmpty
  | jarr _ _ => true
  | jobj _ => true
  | jbuf _ => true

/-- Truthiness of a possibly-`undefined` value (`none` = `undefined`). -/
def truthyO : Option JVal → Bool
  | none => false
  | some v => truthy v

def isNull : JVal → Bool
  | jnull => true
  | _ => false

/-- Models `Array.isArray`. -/
def isArr : JVal → Bool
  | jarr _ _ => true
  | _ => false

/-- Models `Array.isArray` on a possibly-`undefined` value. -/
def isArrO : Option JVal → Bool
  | some (jarr _ _) => true
  | _ => false

/-- First-match association-list lookup (JS objects never hold duplicate
keys, and `Map.prototype.get`). -/
def lookupField : List (String × JVal) → String → Option JVal
  | [], _ => none
  | (k, v) :: rest, key => if k = key then some v else lookupField rest key

/-- JS property write / `Map.prototype.set`: update an existing key in place,
otherwise append at the end (JS insertion order). -/
def setField : List (String × JVal) → String → JVal → List (String × JVal)
  | [], key, v => [(key, v)]
  | (k, w) :: rest, key, v =>
      if k = key then (key, v) :: rest else (k, w) :: setField rest key v

/-- The named own properties of a value, when it is an object (plain object
or array).  Primitives and Buffers yield `none`. -/
def propsOf : JVal → Option (List (String × JVal))
  | jobj fs => some fs
  | jarr _ ps => some ps
  | _ => none

/-- Total property read, usable when the receiver is known non-null:
`v[k]` giving `none` for `undefined`. -/
def getRaw : JVal → String → Option JVal
  | jobj fs, k => lookupField fs k
  | jarr _ ps, k => lookupField ps k
  | _, _ => none

/-- Property read with JS error behaviour: reading any property of `null`
raises a `TypeError`. -/
def getProp : JVal → String → Except Unit (Option JVal)
  | jnull, _ => .error ()
  | jobj fs, k => .ok (lookupField fs k)
  | jarr _ ps, k => .ok (lookupField ps k)
  | _, _ => .ok none

/-- Property write: sets a named property on a plain object or an array;
sloppy-mode silent no-op on primitives and everything else. -/
def setPropVal : JVal → String → JVal → JVal
  | jobj fs, k, v => jobj (setField fs k v)
  | jarr es ps, k, v => jarr es (setField ps k v)
  | other, _, _ => other

/-- Models `typeof v === 'object'` (true for `null`, arrays, plain objects and
Buffers). -/
def typeofObject : JVal → Bool
  | jnull => true
  | jarr _ _ => true
  | jobj _ => true
  | jbuf _ => true
  | _ => false

/-- Index-keyed fields contributed by spreading an array
(`{...someArray}` yields `{"0": _, "1": _, ...}`). -/
def indexedFields (start : Nat) : List JVal → List (String × JVal)
  | [] => []
  | x :: xs => (toString start, x) :: indexedFields (start + 1) xs

/-- Own enumerable properties copied by object spread `{...v}`. -/
def spreadFields : JVal → List (String × JVal)
  | jobj fs => fs
  | jarr es ps => indexedFields 0 es ++ ps
  | _ => []

/-- A `{value, is_confident}` pair as built by the normalizer's placeholder
literals. -/
def confPair (v : JVal) (c : Bool) : JVal :=
  jobj [("value", v), ("is_confident", jbool c)]

/-- The reference-number placeholder string `` `INV-${Date.now()}` ``. -/
def invPlaceholder (nowMs : Nat) : String :=
  "INV-" ++ toString nowMs

/-- Models `ocrData.find(item => item.output)` from the normalizer (lines 266 and
805): scans left to right, raising a `TypeError` if it tests a `null`
element before finding a match. -/
def findOutputItem : List JVal → Except Unit (Option JVal)
  | [] => .ok none
  | item :: rest =>
    match getProp item "output" with
    | .error e => .error e
    | .ok o => if truthyO o then .ok (some item) else findOutputItem rest

/-- Models `findPropertyInArray(array, propertyName)` (lines 359–369): returns the
first truthy `item[propertyName]`, also looking inside a truthy
`item.output`, else `null`. -/
def findPropertyInArray : List JVal → String → Except Unit JVal
  | [], _ => .ok jnull
  | item :: rest, p =>
    match getProp item p with
    | .error e => .error e
    | .ok v =>
      if truthyO v then .ok (v.getD jnull)
      else
        match getProp item "output" with
        | .error e => .error e
        | .ok o =>
          if truthyO o then
            match getProp (o.getD jnull) p with
            | .error e => .error e
            | .ok w =>
              if truthyO w then .ok (w.getD jnull) else findPropertyInArray rest p
          else findPropertyInArray rest p

/-- Reads `pd.output.k` for a `pd` whose `output` is known truthy (hence non-null,
so the read cannot raise). -/
def getOutProp (pd : JVal) (k : String) : Option JVal :=
  match getRaw pd "output" with
  | some o => getRaw o k
  | none => none

/-- Writes `pd.output.k = v` for a `pd` whose `output` is known truthy: sets the
property when `output` is an object or array, silently no-ops when it is a
truthy primitive (sloppy mode). -/
def setOutField (pd : JVal) (k : String) (v : JVal) : JVal :=
  match getRaw pd "output" with
  | some (jobj ofs) => setPropVal pd "output" (jobj (setField ofs k v))
  | some (jarr es ps) => setPropVal pd "output" (jarr es (setField ps k v))
  | _ => pd

/-- The merge branch of the normalizer (lines 271–288 / 810–827), taken when
no array element exposes an `output`: synthesize a base whose `output` pulls
each required field from the first element defining it and defaults the rest
(first defaulting pass, all placeholders `is_confident: false`), then adopt
`ocrData[2].output.items` when present and an array. -/
def mergeBase (nowMs : Nat) (today : String) (nr ns tf tj : JVal) : JVal :=
  jobj [("output", jobj
    [("nomor_referensi",
      if truthy nr then nr else confPair (jstr (invPlaceholder nowMs)) false),
     ("nama_supplier",
      if truthy ns then ns else confPair (jstr "Unknown Supplier") false),
     ("tanggal_faktur",
      if truthy tf then tf else confPair (jstr today) false),
     ("tgl_jatuh_tempo",
      if truthy tj then tj else confPair (jstr "") false),
     ("items", jarr [] [])])]

def mergeArray (nowMs : Nat) (today : String) (elems : List JVal) :
    Except Unit JVal :=
  match findPropertyInArray elems "nomor_referensi" with
  | .error e => .error e
  | .ok nr =>
    match findPropertyInArray elems "nama_supplier" with
    | .error e => .error e
    | .ok ns =>
      match findPropertyInArray elems "tanggal_faktur" with
      | .error e => .error e
      | .ok tf =>
        match findPropertyInArray elems "tgl_jatuh_tempo" with
        | .error e => .error e
        | .ok tj =>
          match elems.get? 2 with
          | none => .ok (mergeBase nowMs today nr ns tf tj)
          | some third =>
            if truthy third then
              match getProp third "output" with
              | .error e => .error e
              | .ok o =>
                if truthyO o then
                  match getProp (o.getD jnull) "items" with
                  | .error e => .error e
                  | .ok (some (jarr xs ps)) =>
                    .ok (setOutField (mergeBase nowMs today nr ns tf tj) "items" (jarr xs ps))
                  | .ok _ => .ok (mergeBase nowMs today nr ns tf tj)
                else .ok (mergeBase nowMs today nr ns tf tj)
            else .ok (mergeBase nowMs today nr ns tf tj)

/-- Step 1–3 of the normalizer (lines 262–293 / 800–832): adopt the first
array element exposing an `output` field, else merge the array; a non-array
payload is adopted directly. -/
def adoptBase (nowMs : Nat) (today : String) (ocrData : JVal) : Except Unit JVal :=
  match ocrData with
  | jarr elems _ =>
    (match findOutputItem elems with
     | .error e => .error e
     | .ok (some item) => .ok item
     | .ok none => mergeArray nowMs today elems)
  | other => .ok other

/-- Step 5 of the normalizer (lines 308–328 / 847–867), a single field: if
`pd.output.k` is falsy, backfill it with the given placeholder. -/
def backfillField (pd : JVal) (k : String) (placeholder : JVal) : JVal :=
  if truthyO (getOutProp pd k) then pd else setOutField pd k placeholder

/-- The backfill pass: only `nomor_referensi` (placeholder
`is_confident: true`), `nama_supplier` and `tanggal_faktur`
(both `is_confident: false`) are re-checked — `tgl_jatuh_tempo` is not. -/
def backfill3 (nowMs : Nat) (today : String) (pd : JVal) : JVal :=
  let pd1 := backfillField pd "nomor_referensi"
    (confPair (jstr (invPlaceholder nowMs)) true)
  let pd2 := backfillField pd1 "nama_supplier"
    (confPair (jstr "Unknown Supplier") false)
  backfillField pd2 "tanggal_faktur" (confPair (jstr today) false)

/-- Step 6 (lines 330–333 / 869–872): coerce `output.items` to `[]` when it
is not an array. -/
def ensureItemsArr (pd : JVal) : JVal :=
  match getOutProp pd "items" with
  | some (jarr _ _) => pd
  | _ => setOutField pd "items" (jarr [] [])

/-- The full response normalizer (lines 262–333, repeated verbatim at
800–872): adopt a base, wrap it when it lacks a truthy `output`
(`{output: {...base, items: []}}`), backfill three required fields, coerce
`items`.  Raises (`.error`) exactly where the JS code raises a
`TypeError`. -/
def normalizeOcrData (nowMs : Nat) (today : String) (ocrData : JVal) :
    Except Unit JVal :=
  match adoptBase nowMs today ocrData with
  | .error e => .error e
  | .ok pd0 =>
    match getProp pd0 "output" with
    | .error e => .error e
    | .ok o =>
      let pd1 := if truthyO o then pd0 else
        jobj [("output", jobj (setField
          (if typeofObject pd0 then spreadFields pd0 else []) "items" (jarr [] [])))]
      .ok (ensureItemsArr (backfill3 nowMs today pd1))

/-- The payloads on which the normalizer raises: `item.output` inside
`Array.prototype.find` raises on a `null` element reached before any
`output`-bearing element. -/
def scanSafe : List JVal → Bool
  | [] => true
  | e :: rest =>
    if isNull e then false
    else if truthyO (getRaw e "output") then true
    else scanSafe rest

/-- Characterizes the payloads the normalizer absorbs without raising:
everything except `null` itself and arrays whose element scan hits a `null`
before an `output`-bearing element. -/
def jsafe : JVal → Bool
  | jnull => false
  | jarr es _ => scanSafe es
  | _ => true

/-- Did an `Except` computation succeed? -/
def exOk {e : Type} : Except e JVal → Bool
  | .ok _ => true
  | .error _ => false

/-- The two ways the trigger-path normalizer can raise: a `TypeError` from a
property access on `null`, or the `ReferenceError` raised because
`findPropertyInArray` — a function declaration scoped to the worker callback
(line 359) — is not in scope inside `processQueuedFile`. -/
inductive JsRaise where
  | typeError
  | refError
deriving DecidableEq

/-- The message the catch handler stores for a trigger-path normalizer
raise (the `TypeError` text is abstracted, the `ReferenceError` text is the
real Node message). -/
def raiseMsg : JsRaise → String
  | .typeError => "TypeError"
  | .refError => "findPropertyInArray is not defined"

/-- Step 1–3 of the normalizer as executed inside `processQueuedFile`
(lines 800–832): the `find` uses an inline arrow and works, but the merge
branch (lines 810–827) calls `findPropertyInArray`, which is declared inside
the `processingQueue` worker callback (line 359) and is undefined here — so
reaching the merge branch raises `ReferenceError: findPropertyInArray is not
defined` while evaluating the first property of the synthesized object. -/
def adoptBaseTrigger (ocrData : JVal) : Except JsRaise JVal :=
  match ocrData with
  | jarr elems _ =>
    (match findOutputItem elems with
     | .error _ => .error .typeError
     | .ok (some item) => .ok item
     | .ok none => .error .refError)
  | other => .ok other

/-- The normalizer as executed on the trigger path (lines 800–872): the wrap,
backfill and items coercion are the same code as the worker's, but the
adoption phase raises `ReferenceError` on the merge branch
(see `adoptBaseTrigger`). -/
def normalizeOcrDataTrigger (nowMs : Nat) (today : String) (ocrData : JVal) :
    Except JsRaise JVal :=
  match adoptBaseTrigger ocrData with
  | .error e => .error e
  | .ok pd0 =>
    match getProp pd0 "output" with
    | .error _ => .error .typeError
    | .ok o =>
      let pd1 := if truthyO o then pd0 else
        jobj [("output", jobj (setField
          (if typeofObject pd0 then spreadFields pd0 else []) "items" (jarr [] [])))]
      .ok (ensureItemsArr (backfill3 nowMs today pd1))

/-- Characterizes the payloads the trigger-path normalizer absorbs without
raising: everything except `null` and the arrays that fail to adopt — an
array survives only when the element scan reaches an `output`-bearing
element without meeting a `null` first; otherwise it raises (`TypeError` on
a `null` element, or `ReferenceError` in the out-of-scope merge branch,
which `[]` and every other output-less array reaches). -/
def jsafeTrigger : JVal → Bool
  | jnull => false
  | jarr es _ =>
    (match findOutputItem es with
     | .ok (some _) => true
     | _ => false)
  | _ => true

/-! ## The Status Store and the job records -/

/-- The module-level `processingStatus` map. -/
abbrev Store := List (String × JVal)

/-- The record written by `updateStatus` (lines 387–398): a full overwrite
with exactly these six fields.  `now` abstracts
`new Date().toISOString()`. -/
def statusRecord (now fileId status : String) (result : JVal) (progress : Int)
    (fileInfo : JVal) : JVal :=
  jobj [("id", jstr fileId), ("status", jstr status), ("result", result),
        ("progress", jnum progress), ("fileInfo", fileInfo),
        ("updatedAt", jstr now)]

/-- Models `updateStatus(fileId, status, result, progress, fileInfo)`:
last-writer-wins overwrite of the record for `fileId`. -/
def updateStatus (now : String) (store : Store) (fileId status : String)
    (result : JVal) (progress : Int) (fileInfo : JVal) : Store :=
  setField store fileId (statusRecord now fileId status result progress fileInfo)

/-- Models `queueFile` (lines 401–415), the part visible in the Status Store:
initializes the record to `queued` with progress 0 (the push onto the
worker queue is not modelled here). -/
def queueFile (now : String) (store : Store) (fileId filePath originalname : String) :
    Store :=
  updateStatus now store fileId "queued" jnull 0
    (jobj [("id", jstr fileId), ("name", jstr originalname), ("path", jstr filePath)])

/-- Models `getFileStatus` (lines 418–424): the stored record, or the synthetic
`not_found` record — which carries only `id`, `status` and `progress`. -/
def getFileStatus (store : Store) (fileId : String) : JVal :=
  match lookupField store fileId with
  | some record => record
  | none => jobj [("id", jstr fileId), ("status", jstr "not_found"),
                  ("progress", jnum 0)]

/-- Models `queueBuffer` (lines 911–934): stores the buffer-holding record verbatim
(note the shape: no `progress`, no `fileInfo`, no `updatedAt`, and a
`results` — plural — field). -/
def queueBuffer (now : String) (store : Store) (processId : String)
    (bufLen : Nat) (originalFilename mimetype : String) : Store :=
  setField store processId (jobj
    [("id", jstr processId),
     ("originalFilename", jstr originalFilename),
     ("status", jstr "queued"),
     ("mimetype", jstr mimetype),
     ("queuedAt", jstr now),
     ("buffer", jbuf bufLen),
     ("dataSize", jnum bufLen),
     ("results", jnull),
     ("error", jnull)])

/-- Convenience: the `status` field of the record stored for `fileId`. -/
def statusOf (store : Store) (fileId : String) : Option JVal :=
  (lookupField store fileId).bind fun record => getRaw record "status"

/-- The key list of an object value (used to compare record shapes). -/
def keysOf : JVal → List String
  | jobj fs => fs.map Prod.fst
  | _ => []

/-! ## Retry/fallback orchestration -/

/-- The constant `MAX_RETRIES` (line 19). -/
def MAX_RETRIES : Nat := 2

/-- The configuration read at module load (lines 16–24): endpoints, the
dev-mode flag, and the `USE_MOCK_DATA` gate consulted only by the worker
path (line 104). -/
structure OrchEnv where
  primaryEndpoint : String
  fallbackEndpoint : String
  isDevMode : Bool
  useMockData : Bool

/-- Abstraction of the network: how each endpoint would answer each attempt.
Because every retry iteration and the fallback branch die at
`formData.delete` before issuing a request, the program only ever consults
`primaryOk 0` and `primaryResp`; the remaining fields describe responses
that are never requested, and `errMsg` (the message of attempt 0's failure)
is always overwritten by the `TypeError` before it can surface. -/
structure Oracle where
  primaryOk : Nat → Bool
  primaryResp : JVal
  fallbackOk : Bool
  fallbackResp : JVal
  errMsg : String

/-- One observable step of the orchestration's network phase.  `request` is
an `axios.post` actually issued, with `freshRead` recording that a freshly
created read stream of the source file was appended to the form data
beforehand (lines 132–133 / 637–638).  `deleteTypeError` records an
iteration that died at `formData.delete('file')`: the `form-data` package
has no `delete` method, so that call raises
`TypeError: formData.delete is not a function` before any `createReadStream`
or `axios.post`. -/
inductive OrchEvent where
  | request (endpoint : String) (freshRead : Bool)
  | deleteTypeError
deriving DecidableEq

/-- Tests whether an event is a request actually issued. -/
def isRequest : OrchEvent → Bool
  | .request _ _ => true
  | .deleteTypeError => false

/-- Tests whether an event is a request issued to the given endpoint. -/
def requestsTo (ep : String) : OrchEvent → Bool
  | .request e _ => e == ep
  | .deleteTypeError => false

/-- The message of the `TypeError` raised by `formData.delete('file')`. -/
def formDataDeleteMsg : String := "formData.delete is not a function"

/-- Terminal disposition of one orchestration run. -/
inductive OrchOutcome where
  | success (payload : JVal)
  | mockCompleted
  | failed

/-- The retry/fallback orchestration (lines 139–259 / 644–694 and 696–798)
as it actually executes.  Attempt 0 appends a fresh read stream and issues a
real request.  Every retry iteration (`retryCount = 1 .. MAX_RETRIES`,
lines 147–153 / 652–658) begins with `formData.delete('file')`, which raises
a `TypeError` caught by the loop's own catch (lines 176–188 / 681–693) — so
no retry ever reaches `axios.post`, and after one real request the loop
exits unsuccessful with `lastError` being that `TypeError`.  The fallback
branch (lines 202–214 / 707–719), taken only when the endpoints differ,
raises the same `TypeError` at `formData.delete` before its `axios.post`,
caught as `fallbackError` — the fallback endpoint is never contacted.  On
total failure the terminal policy is mock data in dev mode, an error
carrying the `TypeError` message otherwise. -/
def orchestrate (env : OrchEnv) (orc : Oracle) : List OrchEvent × OrchOutcome :=
  if orc.primaryOk 0 then
    ([OrchEvent.request env.primaryEndpoint true], .success orc.primaryResp)
  else
    if env.primaryEndpoint ≠ env.fallbackEndpoint then
      (OrchEvent.request env.primaryEndpoint true ::
        (List.replicate MAX_RETRIES OrchEvent.deleteTypeError ++
          [OrchEvent.deleteTypeError]),
       if env.isDevMode then .mockCompleted else .failed)
    else
      (OrchEvent.request env.primaryEndpoint true ::
        List.replicate MAX_RETRIES OrchEvent.deleteTypeError,
       if env.isDevMode then .mockCompleted else .failed)

/-- The progress-heartbeat updates (lines 92–99 / 611–618): `progress += 5`
every tick, reported only while `progress <= 90`, after which the interval
is cleared.  `t` is the number of timer ticks that fire before the
orchestration terminates. -/
def heartbeatUpdates : Nat → Int → List Int
  | 0, _ => []
  | t + 1, p => if p + 5 ≤ 90 then (p + 5) :: heartbeatUpdates t (p + 5) else []

/-- The value of the `progress` counter after `t` timer firings: it is
incremented by 5 on every firing, and the interval clears itself on the
firing that takes it past 90 (at 95), after which it never fires again. -/
def heartbeatEnd : Nat → Int → Int
  | 0, p => p
  | t + 1, p => if p + 5 ≤ 90 then heartbeatEnd t (p + 5) else p + 5

/-- The clock values of one run: `now` for every `updatedAt`, `nowIso` for
`processedAt`, `nowMs` for `Date.now()`, `today` for
`new Date().toISOString().split('T')[0]`. -/
structure Clock where
  now : String
  nowIso : String
  nowMs : Nat
  today : String

/-- Models `createMockResult` (lines 432–579), transcribed verbatim. -/
def createMockResult (c : Clock) (fileId : String) (filename : JVal) : JVal :=
  jobj
    [("id", jstr fileId),
     ("filename", filename),
     ("processedAt", jstr c.nowIso),
     ("ocrData", jobj
       [("nomor_referensi", jobj [("value", jstr "SSP318905"), ("is_confident", jbool true)]),
        ("nama_supplier", jobj [("value", jstr "PT SUKSES SEJATI PERKASA"), ("is_confident", jbool true)]),
        ("tgl_jatuh_tempo", jobj [("value", jstr "05-03-2025"), ("epoch", jnum 1741150800), ("is_confident", jbool true)]),
        ("tanggal_faktur", jobj [("value", jstr "26-02-2025"), ("epoch", jnum 1740546000), ("is_confident", jbool true)]),
        ("tipe_dokumen", jobj [("value", jstr "Faktur"), ("is_confident", jbool true)]),
        ("tipe_pembayaran", jobj [("value", jstr "Tunai"), ("is_confident", jbool true)]),
        ("salesman", jobj [("value", jstr "ZUN"), ("is_confident", jbool true)]),
        ("include_vat", jobj [("value", jbool true), ("is_confident", jbool true)]),
        ("output", jobj
          [("item_keys", jarr
            [jstr "kode_barang_invoice", jstr "nama_barang_invoice", jstr "qty",
             jstr "satuan", jstr "harga_satuan", jstr "harga_bruto",
             jstr "diskon_persen", jstr "diskon_rp", jstr "jumlah_netto"] []),
           ("items", jarr
             [jobj
               [("kode_barang_invoice", jobj [("value", jstr "12540202"), ("is_confident", jbool true)]),
                ("nama_barang_invoice", jobj [("value", jstr "MILO ACTIV - GO UHT Cabk 110ml / 36"), ("is_confident", jbool true)]),
                ("qty", jobj [("value", jnum 5), ("is_confident", jbool true)]),
                ("satuan", jobj [("value", jstr "CTN"), ("is_confident", jbool true)]),
                ("harga_satuan", jobj [("value", jnum 95570), ("is_confident", jbool true)]),
                ("harga_bruto", jobj [("value", jnum 477850), ("is_confident", jbool true)]),
                ("diskon_persen", jobj [("value", jnum 3), ("is_confident", jbool true)]),
                ("diskon_rp", jobj [("value", jnum 14336), ("is_confident", jbool true)]),
                ("jumlah_netto", jobj [("value", jnum 463515), ("is_confident", jbool true)])],
              jobj
               [("kode_barang_invoice", jobj [("value", jstr "12540203"), ("is_confident", jbool true)]),
                ("nama_barang_invoice", jobj [("value", jstr "MILO ACTIV - GO UHT Cabk 180ml / 36"), ("is_confident", jbool true)]),
                ("qty", jobj [("value", jnum 5), ("is_confident", jbool true)]),
                ("satuan", jobj [("value", jstr "CTN"), ("is_confident", jbool true)]),
                ("harga_satuan", jobj [("value", jnum 163490), ("is_confident", jbool true)]),
                ("harga_bruto", jobj [("value", jnum 817450), ("is_confident", jbool true)]),
                ("diskon_persen", jobj [("value", jnum 3), ("is_confident", jbool true)]),
                ("diskon_rp", jobj [("value", jnum 24524), ("is_confident", jbool false)]),
                ("jumlah_netto", jobj [("value", jnum 792926), ("is_confident", jbool false)])]] []),
           ("total_items", jobj [("value", jnum 0), ("is_confident", jbool false)])]),
        ("debug", jarr
          [jobj [("item", jnum 1),
                 ("issue", jstr "Diskon Rp pada item 2 (24.524) tidak sesuai dengan perhitungan (3% dari 817.450 adalah 24.523,5).")]] []),
        ("debug_summary", jobj
          [("value", jstr "Ada beberapa ketidaksesuaian dalam perhitungan diskon dan jumlah netto pada beberapa item."),
           ("is_confident", jbool false)])])]

/-! ## The deferred trigger `processQueuedFile` -/

/-- Everything one run produces: the final store, the settled outcome, the
orchestration events (issued requests and `formData.delete` raises), and the
`(status, progress)` sequence of all `updateStatus` calls it made —
including the writes the leaked heartbeat makes after an error settles. -/
structure RunResult where
  store : Store
  outcome : Except String JVal
  calls : List OrchEvent
  updates : List (String × Int)

/-- The `catch` handler (lines 896–900) and the in-line production error
branches (760–762, 793–795): write an `error` record with progress 0, then
reject. -/
def finishError (c : Clock) (st : Store) (fileId msg : String)
    (calls : List OrchEvent) (updates : List (String × Int)) : RunResult :=
  { store := updateStatus c.now st fileId "error" (jobj [("message", jstr msg)]) 0 jnull
    outcome := .error msg
    calls := calls
    updates := updates ++ [("error", 0)] }

/-- The completion branches (746–747, 779–780, 893–894): write a `completed`
record with progress 100, then resolve. -/
def finishCompleted (c : Clock) (st : Store) (fileId : String) (result : JVal)
    (calls : List OrchEvent) (updates : List (String × Int)) : RunResult :=
  { store := updateStatus c.now st fileId "completed" result 100 jnull
    outcome := .ok result
    calls := calls
    updates := updates ++ [("completed", 100)] }

/-- Models `processQueuedFile(fileId)` (lines 586–902).  The temp-file
materialization and deletion are pure IO and not modelled.  `ticks` counts
the heartbeat firings before the run settles; `postTicks` counts the
firings after it: the catch handler (lines 896–900) never clears
`progressInterval`, so on the normalizer-raise path the still-armed interval
keeps overwriting the record with `processing` writes until progress passes
90, while every other exit path clears the interval before its terminal
write.  The normalizer raise is caught by that same handler with the message
given by `raiseMsg`. -/
def processQueuedFileRun (env : OrchEnv) (orc : Oracle) (ticks postTicks : Nat)
    (c : Clock) (store : Store) (fileId : String) : RunResult :=
  match lookupField store fileId with
  | none => finishError c store fileId ("No queued file found with ID: " ++ fileId) [] []
  | some q =>
    if truthy q = false then
      finishError c store fileId ("No queued file found with ID: " ++ fileId) [] []
    else if truthyO (getRaw q "buffer") = false then
      finishError c store fileId ("File buffer not found for ID: " ++ fileId) [] []
    else
      let fname := (getRaw q "originalFilename").getD jnull
      let fileInfo := jobj [("id", jstr fileId), ("name", fname),
                            ("mimetype", (getRaw q "mimetype").getD jnull)]
      let store1 := updateStatus c.now store fileId "processing" jnull 0 fileInfo
      let hb := heartbeatUpdates ticks 0
      let store2 := hb.foldl
        (fun s p => updateStatus c.now s fileId "processing" jnull p jnull) store1
      let updates := ("processing", (0 : Int)) :: hb.map fun p => ("processing", p)
      let co := orchestrate env orc
      match co.2 with
      | .failed => finishError c store2 fileId formDataDeleteMsg co.1 updates
      | .mockCompleted =>
        finishCompleted c store2 fileId (createMockResult c fileId fname) co.1 updates
      | .success payload =>
        match normalizeOcrDataTrigger c.nowMs c.today payload with
        | .error e =>
          let storeErr := updateStatus c.now store2 fileId "error"
            (jobj [("message", jstr (raiseMsg e))]) 0 jnull
          let leaked := heartbeatUpdates postTicks (heartbeatEnd ticks 0)
          { store := leaked.foldl
              (fun s p => updateStatus c.now s fileId "processing" jnull p jnull)
              storeErr
            outcome := .error (raiseMsg e)
            calls := co.1
            updates := (updates ++ [("error", 0)]) ++
              leaked.map fun p => ("processing", p) }
        | .ok normalized =>
          finishCompleted c store2 fileId
            (jobj [("id", jstr fileId), ("filename", fname),
                   ("processedAt", jstr c.nowIso), ("ocrData", normalized)])
            co.1 updates

/-- Models the `processingQueue` worker callback (lines 76–384) for one task
`{fileId, filePath, originalname}`.  The `USE_MOCK_DATA` branch (lines
104–126) runs before any await, so the 1-second interval has not fired and
is cleared at line 111.  Heartbeat writes pass `fileInfo` (line 95), the
completion writes pass `fileInfo` (lines 114/233/249/372), the error writes
do not (lines 238/254/376).  The catch at lines 374–378 — reached when the
worker normalizer raises — never clears the interval, leaking `processing`
writes after the error record, exactly as on the trigger path.  Temp-file
deletion (lines 118–123) is pure IO and not modelled. -/
def processFileWorkerRun (env : OrchEnv) (orc : Oracle) (ticks postTicks : Nat)
    (c : Clock) (store : Store) (fileId filePath originalname : String) :
    RunResult :=
  let fileInfo := jobj [("id", jstr fileId), ("name", jstr originalname),
                        ("path", jstr filePath)]
  let store1 := updateStatus c.now store fileId "processing" jnull 0 fileInfo
  if env.useMockData then
    let mock := createMockResult c fileId (jstr originalname)
    { store := updateStatus c.now store1 fileId "completed" mock 100 fileInfo
      outcome := .ok mock
      calls := []
      updates := [("processing", 0), ("completed", 100)] }
  else
    let hb := heartbeatUpdates ticks 0
    let store2 := hb.foldl
      (fun s p => updateStatus c.now s fileId "processing" jnull p fileInfo) store1
    let updates := ("processing", (0 : Int)) :: hb.map fun p => ("processing", p)
    let co := orchestrate env orc
    match co.2 with
    | .failed =>
      { store := updateStatus c.now store2 fileId "error"
          (jobj [("message", jstr formDataDeleteMsg)]) 0 jnull
        outcome := .error formDataDeleteMsg
        calls := co.1
        updates := updates ++ [("error", 0)] }
    | .mockCompleted =>
      let mock := createMockResult c fileId (jstr originalname)
      { store := updateStatus c.now store2 fileId "completed" mock 100 fileInfo
        outcome := .ok mock
        calls := co.1
        updates := updates ++ [("completed", 100)] }
    | .success payload =>
      match normalizeOcrData c.nowMs c.today payload with
      | .error _ =>
        let storeErr := updateStatus c.now store2 fileId "error"
          (jobj [("message", jstr "TypeError")]) 0 jnull
        let leaked := heartbeatUpdates postTicks (heartbeatEnd ticks 0)
        { store := leaked.foldl
            (fun s p => updateStatus c.now s fileId "processing" jnull p fileInfo)
            storeErr
          outcome := .error "TypeError"
          calls := co.1
          updates := (updates ++ [("error", 0)]) ++
            leaked.map fun p => ("processing", p) }
      | .ok normalized =>
        let result := jobj [("id", jstr fileId), ("filename", jstr originalname),
                            ("filePath", jstr filePath),
                            ("processedAt", jstr c.nowIso),
                            ("ocrData", normalized)]
        { store := updateStatus c.now store2 fileId "completed" result 100 fileInfo
          outcome := .ok result
          calls := co.1
          updates := updates ++ [("completed", 100)] }

/-! ## Shape predicates used in the statements -/

/-- The base object carries a truthy `output` property. -/
def OutInv (pd : JVal) : Prop :=
  ∃ o, getRaw pd "output" = some o ∧ truthy o = true

/-- The three required fields the backfill pass guarantees, plus an array
`items` (note: `tgl_jatuh_tempo` is *not* among them). -/
def fieldsOk (ps : List (String × JVal)) : Prop :=
  truthyO (lookupField ps "nomor_referensi") = true ∧
  truthyO (lookupField ps "nama_supplier") = true ∧
  truthyO (lookupField ps "tanggal_faktur") = true ∧
  isArrO (lookupField ps "items") = true

/-- Whenever the `output` of the base object is itself an object (or array),
its properties satisfy `fieldsOk`.  (When `output` is a truthy primitive the
sloppy-mode writes were silent no-ops and nothing is guaranteed.) -/
def fieldPost (pd : JVal) : Prop :=
  ∀ o ps, getRaw pd "output" = some o → propsOf o = some ps → fieldsOk ps

/-- Values whose top-level array elements carry no named array properties.
Every value produced by `JSON.parse` — hence every payload an HTTP OCR
endpoint can deliver — satisfies this. -/
def topLevelJson : JVal → Bool
  | jarr es _ => es.all fun e =>
      match e with
      | jarr _ ps => ps.isEmpty
      | _ => true
  | _ => true

/-- The common shape of a run's `(status, progress)` update sequence: either
the single error write of an early rejection, or a processing prefix, one
terminal write, and a (possibly empty) trail of leaked heartbeat writes. -/
def updatesShape (us : List (String × Int)) : Prop :=
  us = [("error", 0)] ∨
  ∃ (t pt : Nat) (p0 : Int) (term : String × Int),
    (term = ("completed", 100) ∨ term = ("error", 0)) ∧
    us = ((("processing", 0) ::
        (heartbeatUpdates t 0).map fun p => ("processing", p)) ++ [term]) ++
      (heartbeatUpdates pt p0).map fun p => ("processing", p)

/-! ## Association-list and property lemmas -/

theorem lookupField_setField_self (fs : List (String × JVal)) (k : String) (v : JVal) :
    lookupField (setField fs k v) k = some v := by
  induction fs with
  | nil => simp [setField, lookupField]
  | cons kv rest ih =>
    by_cases h : kv.1 = k
    · simp [setField, h, lookupField]
    · simp [setField, h, lookupField, ih]

theorem lookupField_setField_ne (fs : List (String × JVal)) {k k' : String}
    (h : k' ≠ k) (v : JVal) :
    lookupField (setField fs k v) k' = lookupField fs k' := by
  induction fs with
  | nil => simp [setField, lookupField, Ne.symm h]
  | cons kv rest ih =>
    by_cases hk : kv.1 = k
    · subst hk
      simp [setField, lookupField, Ne.symm h]
    · by_cases hk' : kv.1 = k'
      · simp [setField, lookupField, hk, hk', h]
      · simp [setField, lookupField, hk, hk', ih]

theorem getProp_ok_getRaw {v : JVal} {k : String} {w : Option JVal}
    (h : getProp v k = .ok w) : w = getRaw v k := by
  cases v <;> simp_all [getProp, getRaw]

theorem getProp_of_not_null {v : JVal} (h : isNull v = false) (k : String) :
    getProp v k = .ok (getRaw v k) := by
  cases v <;> simp_all [getProp, getRaw, isNull]

theorem truthy_not_null {v : JVal} (h : truthy v = true) : isNull v = false := by
  cases v <;> simp_all [truthy, isNull]

theorem getRaw_some_propsOf {pd : JVal} {k : String} {o : JVal}
    (h : getRaw pd k = some o) :
    ∃ fs, propsOf pd = some fs ∧ lookupField fs k = some o := by
  cases pd <;> simp_all [getRaw, propsOf]

theorem getRaw_eq_lookup {pd : JVal} {fs : List (String × JVal)}
    (h : propsOf pd = some fs) (k : String) : getRaw pd k = lookupField fs k := by
  cases pd <;> simp_all [getRaw, propsOf]

theorem getRaw_of_propsOf_none {pd : JVal} (h : propsOf pd = none) (k : String) :
    getRaw pd k = none := by
  cases pd <;> simp_all [getRaw, propsOf]

theorem propsOf_setPropVal {pd : JVal} {fs : List (String × JVal)}
    (h : propsOf pd = some fs) (k : String) (v : JVal) :
    propsOf (setPropVal pd k v) = some (setField fs k v) := by
  cases pd <;> simp_all [propsOf, setPropVal]

theorem truthy_setPropVal {pd : JVal} {fs : List (String × JVal)}
    (h : propsOf pd = some fs) (k : String) (v : JVal) :
    truthy (setPropVal pd k v) = true := by
  cases pd <;> simp_all [propsOf, setPropVal, truthy]

theorem getRaw_setPropVal_self {pd : JVal} {fs : List (String × JVal)}
    (h : propsOf pd = some fs) (k : String) (v : JVal) :
    getRaw (setPropVal pd k v) k = some v := by
  cases pd <;> simp_all [propsOf, setPropVal, getRaw, lookupField_setField_self]

theorem getRaw_setPropVal_ne {pd : JVal} {fs : List (String × JVal)}
    (h : propsOf pd = some fs) {k k' : String} (hne : k' ≠ k) (v : JVal) :
    getRaw (setPropVal pd k v) k' = getRaw pd k' := by
  cases pd <;> simp_all [propsOf, setPropVal, getRaw, lookupField_setField_ne _ hne]

/-! ## Behaviour of the normalizer's field writes -/

theorem setOutField_of_props {pd o : JVal} {ops : List (String × JVal)}
    (ho : getRaw pd "output" = some o) (hops : propsOf o = some ops)
    (k : String) (v : JVal) :
    setOutField pd k v = setPropVal pd "output" (setPropVal o k v) := by
  cases o <;> simp_all [propsOf, setOutField, ho, setPropVal]

theorem setOutField_of_prim {pd o : JVal}
    (ho : getRaw pd "output" = some o) (hprim : propsOf o = none)
    (k : String) (v : JVal) : setOutField pd k v = pd := by
  cases o <;> simp_all [propsOf, setOutField, ho]

theorem getRaw_setOutField_out {pd o : JVal} {ops : List (String × JVal)}
    (ho : getRaw pd "output" = some o) (hops : propsOf o = some ops)
    (k : String) (v : JVal) :
    getRaw (setOutField pd k v) "output" = some (setPropVal o k v) := by
  obtain ⟨pfs, hpfs, _⟩ := getRaw_some_propsOf ho
  rw [setOutField_of_props ho hops]
  exact getRaw_setPropVal_self hpfs "output" (setPropVal o k v)

theorem setOutField_jobj {fs : List (String × JVal)} (k : String) (v : JVal) :
    ∃ fs', setOutField (jobj fs) k v = jobj fs' := by
  unfold setOutField
  cases h : getRaw (jobj fs) "output" with
  | none => exact ⟨fs, rfl⟩
  | some o =>
    cases o with
    | jobj ofs => exact ⟨setField fs "output" (jobj (setField ofs k v)), rfl⟩
    | jarr es ps => exact ⟨setField fs "output" (jarr es (setField ps k v)), rfl⟩
    | jnull => exact ⟨fs, rfl⟩
    | jbool b => exact ⟨fs, rfl⟩
    | jnum n => exact ⟨fs, rfl⟩
    | jstr s => exact ⟨fs, rfl⟩
    | jbuf n => exact ⟨fs, rfl⟩

theorem backfillField_of_prim {pd o : JVal}
    (ho : getRaw pd "output" = some o) (hprim : propsOf o = none)
    (k : String) (v : JVal) : backfillField pd k v = pd := by
  unfold backfillField
  simp only [getOutProp, ho, getRaw_of_propsOf_none hprim]
  simp [truthyO, setOutField_of_prim ho hprim]

theorem backfillField_of_props {pd o : JVal} {ops : List (String × JVal)}
    (ho : getRaw pd "output" = some o) (hops : propsOf o = some ops)
    (k : String) {v : JVal} (hv : truthy v = true) :
    ∃ o' ops', getRaw (backfillField pd k v) "output" = some o' ∧
      truthy o' = true ∧ propsOf o' = some ops' ∧
      truthyO (lookupField ops' k) = true ∧
      (∀ k', k' ≠ k → lookupField ops' k' = lookupField ops k') ∧
      (∀ fs, pd = jobj fs → ∃ fs', backfillField pd k v = jobj fs') := by
  unfold backfillField
  simp only [getOutProp, ho, getRaw_eq_lookup hops]
  by_cases hit : truthyO (lookupField ops k) = true
  · have htr : truthy o = true := by
      cases o <;> simp_all [propsOf, truthy]
    rw [if_pos hit]
    exact ⟨o, ops, ho, htr, hops, hit, fun _ _ => rfl, fun fs h => ⟨fs, h⟩⟩
  · rw [if_neg hit]
    refine ⟨setPropVal o k v, setField ops k v,
      getRaw_setOutField_out ho hops k v,
      truthy_setPropVal hops k v,
      propsOf_setPropVal hops k v,
      ?_, ?_, ?_⟩
    · rw [lookupField_setField_self]; simpa [truthyO] using hv
    · intro k' hk'; exact lookupField_setField_ne ops hk' v
    · intro fs hfs; subst hfs; exact setOutField_jobj k v

theorem ensureItemsArr_of_prim {pd o : JVal}
    (ho : getRaw pd "output" = some o) (hprim : propsOf o = none) :
    ensureItemsArr pd = pd := by
  unfold ensureItemsArr
  simp only [getOutProp, ho, getRaw_of_propsOf_none hprim]
  simp [setOutField_of_prim ho hprim]

theorem ensureItemsArr_of_props {pd o : JVal} {ops : List (String × JVal)}
    (ho : getRaw pd "output" = some o) (hops : propsOf o = some ops) :
    ∃ o' ops', getRaw (ensureItemsArr pd) "output" = some o' ∧
      truthy o' = true ∧ propsOf o' = some ops' ∧
      isArrO (lookupField ops' "items") = true ∧
      (∀ k', k' ≠ "items" → lookupField ops' k' = lookupField ops k') ∧
      (∀ fs, pd = jobj fs → ∃ fs', ensureItemsArr pd = jobj fs') := by
  unfold ensureItemsArr
  simp only [getOutProp, ho, getRaw_eq_lookup hops]
  have htr : truthy o = true := by cases o <;> simp_all [propsOf, truthy]
  cases hit : lookupField ops "items" with
  | some w =>
    cases w with
    | jarr xs ps =>
      exact ⟨o, ops, by simp [ho], htr, hops, by simp [hit, isArrO],
        fun _ _ => rfl, fun fs h => ⟨fs, by simp [h]⟩⟩
    | jnull =>
      refine ⟨setPropVal o "items" (jarr [] []), setField ops "items" (jarr [] []),
        getRaw_setOutField_out ho hops _ _, truthy_setPropVal hops _ _,
        propsOf_setPropVal hops _ _, ?_, ?_, ?_⟩
      · rw [lookupField_setField_self]; simp [isArrO]
      · intro k' hk'; exact lookupField_setField_ne ops hk' _
      · intro fs hfs; subst hfs; exact setOutField_jobj _ _
    | jbool b =>
      refine ⟨setPropVal o "items" (jarr [] []), setField ops "items" (jarr [] []),
        getRaw_setOutField_out ho hops _ _, truthy_setPropVal hops _ _,
        propsOf_setPropVal hops _ _, ?_, ?_, ?_⟩
      · rw [lookupField_setField_self]; simp [isArrO]
      · intro k' hk'; exact lookupField_setField_ne ops hk' _
      · intro fs hfs; subst hfs; exact setOutField_jobj _ _
    | jnum n =>
      refine ⟨setPropVal o "items" (jarr [] []), setField ops "items" (jarr [] []),
        getRaw_setOutField_out ho hops _ _, truthy_setPropVal hops _ _,
        propsOf_setPropVal hops _ _, ?_, ?_, ?_⟩
      · rw [lookupField_setField_self]; simp [isArrO]
      · intro k' hk'; exact lookupField_setField_ne ops hk' _
      · intro fs hfs; subst hfs; exact setOutField_jobj _ _
    | jstr s =>
      refine ⟨setPropVal o "items" (jarr [] []), setField ops "items" (jarr [] []),
        getRaw_setOutField_out ho hops _ _, truthy_setPropVal hops _ _,
        propsOf_setPropVal hops _ _, ?_, ?_, ?_⟩
      · rw [lookupField_setField_self]; simp [isArrO]
      · intro k' hk'; exact lookupField_setField_ne ops hk' _
      · intro fs hfs; subst hfs; exact setOutField_jobj _ _
    | jobj gs =>
      refine ⟨setPropVal o "items" (jarr [] []), setField ops "items" (jarr [] []),
        getRaw_setOutField_out ho hops _ _, truthy_setPropVal hops _ _,
        propsOf_setPropVal hops _ _, ?_, ?_, ?_⟩
      · rw [lookupField_setField_self]; simp [isArrO]
      · intro k' hk'; exact lookupField_setField_ne ops hk' _
      · intro fs hfs; subst hfs; exact setOutField_jobj _ _
    | jbuf n =>
      refine ⟨setPropVal o "items" (jarr [] []), setField ops "items" (jarr [] []),
        getRaw_setOutField_out ho hops _ _, truthy_setPropVal hops _ _,
        propsOf_setPropVal hops _ _, ?_, ?_, ?_⟩
      · rw [lookupField_setField_self]; simp [isArrO]
      · intro k' hk'; exact lookupField_setField_ne ops hk' _
      · intro fs hfs; subst hfs; exact setOutField_jobj _ _
  | none =>
    refine ⟨setPropVal o "items" (jarr [] []), setField ops "items" (jarr [] []),
      getRaw_setOutField_out ho hops _ _, truthy_setPropVal hops _ _,
      propsOf_setPropVal hops _ _, ?_, ?_, ?_⟩
    · rw [lookupField_setField_self]; simp [isArrO]
    · intro k' hk'; exact lookupField_setField_ne ops hk' _
    · intro fs hfs; subst hfs; exact setOutField_jobj _ _

/-! ## Structure of the adopted base -/

theorem getProp_ok_not_null {v : JVal} {k : String} {w : Option JVal}
    (h : getProp v k = .ok w) : isNull v = false := by
  cases v <;> simp_all [getProp, isNull]

theorem findOutputItem_some {es : List JVal} {item : JVal}
    (h : findOutputItem es = .ok (some item)) :
    item ∈ es ∧ truthyO (getRaw item "output") = true ∧ isNull item = false := by
  induction es with
  | nil => simp [findOutputItem] at h
  | cons e rest ih =>
    unfold findOutputItem at h
    cases hg : getProp e "output" with
    | error u => rw [hg] at h; cases h
    | ok o =>
      rw [hg] at h
      dsimp only at h
      by_cases ht : truthyO o = true
      · rw [if_pos ht] at h
        cases h
        refine ⟨List.mem_cons_self _ _, ?_, getProp_ok_not_null hg⟩
        rw [← getProp_ok_getRaw hg]; exact ht
      · rw [if_neg ht] at h
        obtain ⟨hmem, hout, hnn⟩ := ih h
        exact ⟨List.mem_cons_of_mem _ hmem, hout, hnn⟩

theorem findOutputItem_error_iff {es : List JVal} :
    findOutputItem es = .error () ↔ scanSafe es = false := by
  induction es with
  | nil => simp [findOutputItem, scanSafe]
  | cons e rest ih =>
    unfold findOutputItem scanSafe
    by_cases hn : isNull e = true
    · have : e = jnull := by cases e <;> simp_all [isNull]
      subst this
      simp [getProp, hn]
    · rw [if_neg hn]
      have hne : isNull e = false := by simpa using hn
      rw [getProp_of_not_null hne]
      by_cases ht : truthyO (getRaw e "output") = true
      · simp [ht]
      · have ht' : truthyO (getRaw e "output") = false := by simpa using ht
        simp [ht', ih]

theorem findOutputItem_ok_none_all {es : List JVal}
    (h : findOutputItem es = .ok none) : ∀ e ∈ es, isNull e = false := by
  induction es with
  | nil => intro e he; cases he
  | cons e rest ih =>
    intro x hx
    unfold findOutputItem at h
    cases hg : getProp e "output" with
    | error u => rw [hg] at h; cases h
    | ok o =>
      rw [hg] at h
      dsimp only at h
      by_cases ht : truthyO o = true
      · rw [if_pos ht] at h; cases h
      · rw [if_neg ht] at h
        cases hx with
        | head => exact getProp_ok_not_null hg
        | tail _ hmem => exact ih h x hmem

theorem findPropertyInArray_ok {es : List JVal} (p : String)
    (hall : ∀ e ∈ es, isNull e = false) :
    ∃ v, findPropertyInArray es p = .ok v := by
  induction es with
  | nil => exact ⟨jnull, rfl⟩
  | cons e rest ih =>
    have hne : isNull e = false := hall e (List.mem_cons_self _ _)
    have hrest : ∀ x ∈ rest, isNull x = false :=
      fun x hx => hall x (List.mem_cons_of_mem _ hx)
    unfold findPropertyInArray
    rw [getProp_of_not_null hne]
    dsimp only
    by_cases hv : truthyO (getRaw e p) = true
    · rw [if_pos hv]; exact ⟨_, rfl⟩
    · rw [if_neg hv, getProp_of_not_null hne]
      dsimp only
      by_cases ho : truthyO (getRaw e "output") = true
      · rw [if_pos ho]
        have hnn : isNull ((getRaw e "output").getD jnull) = false := by
          cases hg : getRaw e "output" with
          | none => rw [hg] at ho; simp [truthyO] at ho
          | some ov =>
            rw [hg] at ho
            exact truthy_not_null (by simpa [truthyO] using ho)
        rw [getProp_of_not_null hnn]
        dsimp only
        by_cases hw : truthyO (getRaw ((getRaw e "output").getD jnull) p) = true
        · rw [if_pos hw]; exact ⟨_, rfl⟩
        · rw [if_neg hw]; exact ih hrest
      · rw [if_neg ho]; exact ih hrest

theorem mergeArray_shape (n : Nat) (d : String) (es : List JVal) :
    mergeArray n d es = .error () ∨
    ∃ fs os, mergeArray n d es = .ok (jobj fs) ∧
      lookupField fs "output" = some (jobj os) := by
  unfold mergeArray
  cases h1 : findPropertyInArray es "nomor_referensi" with
  | error u => cases u; exact Or.inl rfl
  | ok nr =>
  dsimp only
  cases h2 : findPropertyInArray es "nama_supplier" with
  | error u => cases u; exact Or.inl rfl
  | ok ns =>
  dsimp only
  cases h3 : findPropertyInArray es "tanggal_faktur" with
  | error u => cases u; exact Or.inl rfl
  | ok tf =>
  dsimp only
  cases h4 : findPropertyInArray es "tgl_jatuh_tempo" with
  | error u => cases u; exact Or.inl rfl
  | ok tj =>
  dsimp only
  cases h5 : es.get? 2 with
  | none => exact Or.inr ⟨_, _, rfl, rfl⟩
  | some third =>
  dsimp only
  by_cases h6 : truthy third = true
  case neg => rw [if_neg h6]; exact Or.inr ⟨_, _, rfl, rfl⟩
  case pos =>
  rw [if_pos h6]
  cases h7 : getProp third "output" with
  | error u => cases u; exact Or.inl rfl
  | ok o =>
  dsimp only
  by_cases h8 : truthyO o = true
  case neg => rw [if_neg h8]; exact Or.inr ⟨_, _, rfl, rfl⟩
  case pos =>
  rw [if_pos h8]
  cases h9 : getProp (o.getD jnull) "items" with
  | error u => cases u; exact Or.inl rfl
  | ok w =>
  try dsimp only
  match w with
  | none => exact Or.inr ⟨_, _, rfl, rfl⟩
  | some jnull => exact Or.inr ⟨_, _, rfl, rfl⟩
  | some (jbool b) => exact Or.inr ⟨_, _, rfl, rfl⟩
  | some (jnum m) => exact Or.inr ⟨_, _, rfl, rfl⟩
  | some (jstr s) => exact Or.inr ⟨_, _, rfl, rfl⟩
  | some (jobj gs) => exact Or.inr ⟨_, _, rfl, rfl⟩
  | some (jbuf b) => exact Or.inr ⟨_, _, rfl, rfl⟩
  | some (jarr xs ps) => exact Or.inr ⟨_, _, rfl, rfl⟩

theorem mergeArray_ok_shape {n : Nat} {d : String} {es : List JVal} {pd0 : JVal}
    (h : mergeArray n d es = .ok pd0) :
    ∃ fs os, pd0 = jobj fs ∧ lookupField fs "output" = some (jobj os) := by
  rcases mergeArray_shape n d es with herr | ⟨fs, os, hok, hl⟩
  · rw [herr] at h; cases h
  · rw [hok] at h
    cases h
    exact ⟨fs, os, rfl, hl⟩

theorem mergeArray_no_error {n : Nat} {d : String} {es : List JVal}
    (hall : ∀ e ∈ es, isNull e = false) :
    ∃ pd0, mergeArray n d es = .ok pd0 := by
  obtain ⟨nr, h1⟩ := findPropertyInArray_ok "nomor_referensi" hall
  obtain ⟨ns, h2⟩ := findPropertyInArray_ok "nama_supplier" hall
  obtain ⟨tf, h3⟩ := findPropertyInArray_ok "tanggal_faktur" hall
  obtain ⟨tj, h4⟩ := findPropertyInArray_ok "tgl_jatuh_tempo" hall
  unfold mergeArray
  rw [h1, h2, h3, h4]
  dsimp only
  cases h5 : es.get? 2 with
  | none => exact ⟨_, rfl⟩
  | some third =>
    dsimp only
    by_cases h6 : truthy third = true
    · rw [if_pos h6]
      have hnn : isNull third = false := truthy_not_null h6
      rw [getProp_of_not_null hnn]
      dsimp only
      by_cases h8 : truthyO (getRaw third "output") = true
      · rw [if_pos h8]
        have hnn2 : isNull ((getRaw third "output").getD jnull) = false := by
          cases hg : getRaw third "output" with
          | none => rw [hg] at h8; simp [truthyO] at h8
          | some ov =>
            rw [hg] at h8
            exact truthy_not_null (by simpa [truthyO] using h8)
        rw [getProp_of_not_null hnn2]
        try dsimp only
        cases hw : getRaw ((getRaw third "output").getD jnull) "items" with
        | none => exact ⟨_, rfl⟩
        | some w => cases w <;> exact ⟨_, rfl⟩
      · rw [if_neg h8]; exact ⟨_, rfl⟩
    · rw [if_neg h6]; exact ⟨_, rfl⟩

/-! ## The backfill-and-coerce tail of the normalizer -/

theorem norm_tail_post {pd : JVal} (hInv : OutInv pd) (n : Nat) (d : String) :
    OutInv (ensureItemsArr (backfill3 n d pd)) ∧
    fieldPost (ensureItemsArr (backfill3 n d pd)) ∧
    (∀ fs, pd = jobj fs → ∃ fs', ensureItemsArr (backfill3 n d pd) = jobj fs') := by
  obtain ⟨o, ho, htr⟩ := hInv
  cases hp : propsOf o with
  | none =>
    have e1 : backfillField pd "nomor_referensi"
        (confPair (jstr (invPlaceholder n)) true) = pd :=
      backfillField_of_prim ho hp _ _
    have e2 : backfillField pd "nama_supplier"
        (confPair (jstr "Unknown Supplier") false) = pd :=
      backfillField_of_prim ho hp _ _
    have e3 : backfillField pd "tanggal_faktur" (confPair (jstr d) false) = pd :=
      backfillField_of_prim ho hp _ _
    have e4 : ensureItemsArr pd = pd := ensureItemsArr_of_prim ho hp
    have hb : ensureItemsArr (backfill3 n d pd) = pd := by
      unfold backfill3; dsimp only; rw [e1, e2, e3, e4]
    rw [hb]
    refine ⟨⟨o, ho, htr⟩, ?_, fun fs h => ⟨fs, h⟩⟩
    intro o' ps h1 h2
    rw [ho] at h1
    cases h1
    rw [hp] at h2
    cases h2
  | some ops =>
    obtain ⟨o1, ops1, ho1, htr1, hp1, hk1, hpre1, hj1⟩ :=
      backfillField_of_props ho hp "nomor_referensi"
        (v := confPair (jstr (invPlaceholder n)) true) rfl
    obtain ⟨o2, ops2, ho2, htr2, hp2, hk2, hpre2, hj2⟩ :=
      backfillField_of_props ho1 hp1 "nama_supplier"
        (v := confPair (jstr "Unknown Supplier") false) rfl
    obtain ⟨o3, ops3, ho3, htr3, hp3, hk3, hpre3, hj3⟩ :=
      backfillField_of_props ho2 hp2 "tanggal_faktur"
        (v := confPair (jstr d) false) rfl
    obtain ⟨o4, ops4, ho4, htr4, hp4, hi4, hpre4, hj4⟩ :=
      ensureItemsArr_of_props ho3 hp3
    have hfo : fieldsOk ops4 := by
      refine ⟨?_, ?_, ?_, hi4⟩
      · rw [hpre4 _ (by decide), hpre3 _ (by decide), hpre2 _ (by decide)]
        exact hk1
      · rw [hpre4 _ (by decide), hpre3 _ (by decide)]
        exact hk2
      · rw [hpre4 _ (by decide)]
        exact hk3
    have hb : ensureItemsArr (backfill3 n d pd) =
        ensureItemsArr (backfillField (backfillField (backfillField pd
          "nomor_referensi" (confPair (jstr (invPlaceholder n)) true))
          "nama_supplier" (confPair (jstr "Unknown Supplier") false))
          "tanggal_faktur" (confPair (jstr d) false)) := rfl
    rw [hb]
    refine ⟨⟨o4, ho4, htr4⟩, ?_, ?_⟩
    · intro o' ps h1 h2
      rw [ho4] at h1
      cases h1
      rw [hp4] at h2
      cases h2
      exact hfo
    · intro fs hfs
      obtain ⟨fs1, h1⟩ := hj1 fs hfs
      obtain ⟨fs2, h2⟩ := hj2 fs1 h1
      obtain ⟨fs3, h3⟩ := hj3 fs2 h2
      exact hj4 fs3 h3

/-! ## Shape of the normalizer's result -/

theorem adoptBase_jobj {n : Nat} {d : String} {x pd0 : JVal}
    (hjson : topLevelJson x = true)
    (hA : adoptBase n d x = .ok pd0)
    (hout : truthyO (getRaw pd0 "output") = true) :
    ∃ fs, pd0 = jobj fs := by
  cases x with
  | jarr es ps =>
    unfold adoptBase at hA
    dsimp only at hA
    cases hF : findOutputItem es with
    | error u => rw [hF] at hA; cases hA
    | ok oi =>
      rw [hF] at hA
      try dsimp only at hA
      cases oi with
      | some item =>
        cases hA
        obtain ⟨hmem, hout2, _⟩ := findOutputItem_some hF
        cases pd0 with
        | jobj fs => exact ⟨fs, rfl⟩
        | jarr es2 ps2 =>
          have hps2 : ps2.isEmpty = true := by
            have hall := List.all_eq_true.mp (by simpa [topLevelJson] using hjson)
            simpa using hall _ hmem
          have : ps2 = [] := by simpa using hps2
          subst this
          simp [getRaw, lookupField, truthyO] at hout2
        | jnull => simp [getRaw, truthyO] at hout2
        | jbool b => simp [getRaw, truthyO] at hout2
        | jnum m => simp [getRaw, truthyO] at hout2
        | jstr s => simp [getRaw, truthyO] at hout2
        | jbuf b => simp [getRaw, truthyO] at hout2
      | none =>
        obtain ⟨fs, os, h1, _⟩ := mergeArray_ok_shape hA
        exact ⟨fs, h1⟩
  | jobj fs =>
    have : pd0 = jobj fs := by
      have : adoptBase n d (jobj fs) = .ok (jobj fs) := rfl
      rw [this] at hA
      cases hA
      rfl
    exact ⟨fs, this⟩
  | jnull =>
    have : adoptBase n d jnull = .ok jnull := rfl
    rw [this] at hA
    cases hA
    simp [getRaw, truthyO] at hout
  | jbool b =>
    have : adoptBase n d (jbool b) = .ok (jbool b) := rfl
    rw [this] at hA
    cases hA
    simp [getRaw, truthyO] at hout
  | jnum m =>
    have : adoptBase n d (jnum m) = .ok (jnum m) := rfl
    rw [this] at hA
    cases hA
    simp [getRaw, truthyO] at hout
  | jstr s =>
    have : adoptBase n d (jstr s) = .ok (jstr s) := rfl
    rw [this] at hA
    cases hA
    simp [getRaw, truthyO] at hout
  | jbuf b =>
    have : adoptBase n d (jbuf b) = .ok (jbuf b) := rfl
    rw [this] at hA
    cases hA
    simp [getRaw, truthyO] at hout

theorem normalize_post {n : Nat} {d : String} {x r : JVal}
    (h : normalizeOcrData n d x = .ok r) :
    OutInv r ∧ fieldPost r ∧ (topLevelJson x = true → ∃ fs, r = jobj fs) := by
  unfold normalizeOcrData at h
  cases hA : adoptBase n d x with
  | error u => rw [hA] at h; cases h
  | ok pd0 =>
  rw [hA] at h
  dsimp only at h
  cases hO : getProp pd0 "output" with
  | error u => rw [hO] at h; cases h
  | ok o =>
  rw [hO] at h
  dsimp only at h
  by_cases ht : truthyO o = true
  · rw [if_pos ht] at h
    cases h
    have hgr : getRaw pd0 "output" = o := (getProp_ok_getRaw hO).symm
    obtain ⟨ov, hov⟩ : ∃ ov, o = some ov := by
      cases o with
      | none => simp [truthyO] at ht
      | some ov => exact ⟨ov, rfl⟩
    subst hov
    have hInv : OutInv pd0 := ⟨ov, hgr, by simpa [truthyO] using ht⟩
    obtain ⟨i1, i2, i3⟩ := norm_tail_post hInv n d
    refine ⟨i1, i2, ?_⟩
    intro hjson
    obtain ⟨fs, hfs⟩ := adoptBase_jobj hjson hA (by rw [hgr]; exact ht)
    exact i3 fs hfs
  · rw [if_neg ht] at h
    cases h
    have hInv : OutInv (jobj [("output", jobj (setField
        (if typeofObject pd0 = true then spreadFields pd0 else []) "items"
        (jarr [] [])))]) := by
      refine ⟨jobj (setField
        (if typeofObject pd0 = true then spreadFields pd0 else []) "items"
        (jarr [] [])), ?_, rfl⟩
      simp [getRaw, lookupField]
    obtain ⟨i1, i2, i3⟩ := norm_tail_post hInv n d
    exact ⟨i1, i2, fun _ => i3 _ rfl⟩

theorem normalize_fixpoint {r : JVal} {fs : List (String × JVal)}
    (hr : r = jobj fs) (hInv : OutInv r) (hpost : fieldPost r)
    (n : Nat) (d : String) : normalizeOcrData n d r = .ok r := by
  subst hr
  obtain ⟨o, ho, htr⟩ := hInv
  have hlk : lookupField fs "output" = some o := by simpa [getRaw] using ho
  unfold normalizeOcrData
  have hA : adoptBase n d (jobj fs) = .ok (jobj fs) := rfl
  rw [hA]
  dsimp only
  have hO : getProp (jobj fs) "output" = .ok (some o) := by
    simp [getProp, hlk]
  rw [hO]
  dsimp only
  rw [if_pos (show truthyO (some o) = true by simpa [truthyO] using htr)]
  suffices hsuf : ensureItemsArr (backfill3 n d (jobj fs)) = jobj fs by rw [hsuf]
  cases hp : propsOf o with
  | none =>
    have e1 := backfillField_of_prim ho hp "nomor_referensi"
      (confPair (jstr (invPlaceholder n)) true)
    have e2 := backfillField_of_prim ho hp "nama_supplier"
      (confPair (jstr "Unknown Supplier") false)
    have e3 := backfillField_of_prim ho hp "tanggal_faktur" (confPair (jstr d) false)
    have e4 := ensureItemsArr_of_prim ho hp
    unfold backfill3
    dsimp only
    rw [e1, e2, e3, e4]
  | some ops =>
    obtain ⟨f1, f2, f3, f4⟩ := hpost o ops ho hp
    have hget : ∀ k, getOutProp (jobj fs) k = lookupField ops k := by
      intro k
      simp [getOutProp, ho, getRaw_eq_lookup hp]
    have e1 : backfillField (jobj fs) "nomor_referensi"
        (confPair (jstr (invPlaceholder n)) true) = jobj fs := by
      unfold backfillField
      rw [hget, if_pos f1]
    have e2 : backfillField (jobj fs) "nama_supplier"
        (confPair (jstr "Unknown Supplier") false) = jobj fs := by
      unfold backfillField
      rw [hget, if_pos f2]
    have e3 : backfillField (jobj fs) "tanggal_faktur"
        (confPair (jstr d) false) = jobj fs := by
      unfold backfillField
      rw [hget, if_pos f3]
    have e4 : ensureItemsArr (jobj fs) = jobj fs := by
      unfold ensureItemsArr
      rw [hget]
      cases hli : lookupField ops "items" with
      | none => rw [hli] at f4; simp [isArrO] at f4
      | some w =>
        cases w with
        | jarr xs ps => rfl
        | jnull => rw [hli] at f4; simp [isArrO] at f4
        | jbool b => rw [hli] at f4; simp [isArrO] at f4
        | jnum m => rw [hli] at f4; simp [isArrO] at f4
        | jstr s => rw [hli] at f4; simp [isArrO] at f4
        | jobj gs => rw [hli] at f4; simp [isArrO] at f4
        | jbuf b => rw [hli] at f4; simp [isArrO] at f4
    unfold backfill3
    dsimp only
    rw [e1, e2, e3, e4]

/-! ## When the normalizer raises -/

theorem normalize_err_of_not_jsafe {n : Nat} {d : String} {x : JVal}
    (h : jsafe x = false) : normalizeOcrData n d x = .error () := by
  cases x with
  | jnull => rfl
  | jarr es ps =>
    have hs : scanSafe es = false := by simpa [jsafe] using h
    have hF : findOutputItem es = .error () := findOutputItem_error_iff.mpr hs
    unfold normalizeOcrData adoptBase
    dsimp only
    rw [hF]
  | jbool b => simp [jsafe] at h
  | jnum m => simp [jsafe] at h
  | jstr s => simp [jsafe] at h
  | jobj fs => simp [jsafe] at h
  | jbuf b => simp [jsafe] at h

theorem normalize_ok_of_jsafe {n : Nat} {d : String} {x : JVal}
    (h : jsafe x = true) : ∃ r, normalizeOcrData n d x = .ok r := by
  have step : ∀ pd0 : JVal, isNull pd0 = false →
      ∃ r, (match getProp pd0 "output" with
        | .error e => (.error e : Except Unit JVal)
        | .ok o =>
          .ok (ensureItemsArr (backfill3 n d (if truthyO o then pd0 else
            jobj [("output", jobj (setField
              (if typeofObject pd0 then spreadFields pd0 else []) "items"
              (jarr [] [])))])))) = .ok r := by
    intro pd0 hnn
    rw [getProp_of_not_null hnn]
    exact ⟨_, rfl⟩
  cases x with
  | jnull => simp [jsafe] at h
  | jarr es ps =>
    have hs : scanSafe es = true := by simpa [jsafe] using h
    cases hF : findOutputItem es with
    | error u =>
      cases u
      rw [findOutputItem_error_iff] at hF
      rw [hF] at hs
      cases hs
    | ok oi =>
      cases oi with
      | some item =>
        obtain ⟨_, _, hnn⟩ := findOutputItem_some hF
        have hA : adoptBase n d (jarr es ps) = .ok item := by
          unfold adoptBase
          dsimp only
          rw [hF]
        obtain ⟨r, hr⟩ := step item hnn
        refine ⟨r, ?_⟩
        unfold normalizeOcrData
        rw [hA]
        exact hr
      | none =>
        have hall := findOutputItem_ok_none_all hF
        obtain ⟨pd0, hM⟩ := mergeArray_no_error (n := n) (d := d) hall
        obtain ⟨fs, os, hfs, _⟩ := mergeArray_ok_shape hM
        subst hfs
        have hA : adoptBase n d (jarr es ps) = .ok (jobj fs) := by
          unfold adoptBase
          dsimp only
          rw [hF]
          exact hM
        obtain ⟨r, hr⟩ := step (jobj fs) rfl
        refine ⟨r, ?_⟩
        unfold normalizeOcrData
        rw [hA]
        exact hr
  | jbool b =>
    obtain ⟨r, hr⟩ := step (jbool b) rfl
    exact ⟨r, hr⟩
  | jnum m =>
    obtain ⟨r, hr⟩ := step (jnum m) rfl
    exact ⟨r, hr⟩
  | jstr s =>
    obtain ⟨r, hr⟩ := step (jstr s) rfl
    exact ⟨r, hr⟩
  | jobj fs =>
    obtain ⟨r, hr⟩ := step (jobj fs) rfl
    exact ⟨r, hr⟩
  | jbuf b =>
    obtain ⟨r, hr⟩ := step (jbuf b) rfl
    exact ⟨r, hr⟩

theorem exOk_normalize (n : Nat) (d : String) (x : JVal) :
    exOk (normalizeOcrData n d x) = jsafe x := by
  by_cases hs : jsafe x = true
  · obtain ⟨r, hr⟩ := normalize_ok_of_jsafe (n := n) (d := d) hs
    rw [hr, hs]
    rfl
  · have hs' : jsafe x = false := by simpa using hs
    rw [normalize_err_of_not_jsafe (n := n) (d := d) hs', hs']
    rfl

/-! ## The trigger-path normalizer -/

theorem normalizeTrigger_ok_of_safe {n : Nat} {d : String} {x : JVal}
    (h : jsafeTrigger x = true) :
    ∃ r, normalizeOcrDataTrigger n d x = .ok r := by
  cases x with
  | jnull => simp [jsafeTrigger] at h
  | jarr es ps =>
    cases hF : findOutputItem es with
    | error u =>
      unfold jsafeTrigger at h
      dsimp only at h
      rw [hF] at h
      cases h
    | ok oi =>
      cases oi with
      | none =>
        unfold jsafeTrigger at h
        dsimp only at h
        rw [hF] at h
        cases h
      | some item =>
        have hnn : isNull item = false := (findOutputItem_some hF).2.2
        have hA : adoptBaseTrigger (jarr es ps) = .ok item := by
          unfold adoptBaseTrigger
          dsimp only
          rw [hF]
        unfold normalizeOcrDataTrigger
        rw [hA]
        dsimp only
        rw [getProp_of_not_null hnn]
        exact ⟨_, rfl⟩
  | jbool b => exact ⟨_, rfl⟩
  | jnum m => exact ⟨_, rfl⟩
  | jstr s => exact ⟨_, rfl⟩
  | jobj fs => exact ⟨_, rfl⟩
  | jbuf b => exact ⟨_, rfl⟩

theorem normalizeTrigger_err_of_unsafe {n : Nat} {d : String} {x : JVal}
    (h : jsafeTrigger x = false) :
    ∃ e, normalizeOcrDataTrigger n d x = .error e := by
  cases x with
  | jnull => exact ⟨.typeError, rfl⟩
  | jarr es ps =>
    cases hF : findOutputItem es with
    | error u =>
      cases u
      have hA : adoptBaseTrigger (jarr es ps) = .error .typeError := by
        unfold adoptBaseTrigger
        dsimp only
        rw [hF]
      exact ⟨.typeError, by unfold normalizeOcrDataTrigger; rw [hA]⟩
    | ok oi =>
      cases oi with
      | none =>
        have hA : adoptBaseTrigger (jarr es ps) = .error .refError := by
          unfold adoptBaseTrigger
          dsimp only
          rw [hF]
        exact ⟨.refError, by unfold normalizeOcrDataTrigger; rw [hA]⟩
      | some item =>
        unfold jsafeTrigger at h
        dsimp only at h
        rw [hF] at h
        cases h
  | jbool b => simp [jsafeTrigger] at h
  | jnum m => simp [jsafeTrigger] at h
  | jstr s => simp [jsafeTrigger] at h
  | jobj fs => simp [jsafeTrigger] at h
  | jbuf b => simp [jsafeTrigger] at h

theorem exOk_normalizeTrigger (n : Nat) (d : String) (x : JVal) :
    exOk (normalizeOcrDataTrigger n d x) = jsafeTrigger x := by
  by_cases hs : jsafeTrigger x = true
  · obtain ⟨r, hr⟩ := normalizeTrigger_ok_of_safe (n := n) (d := d) hs
    rw [hr, hs]
    rfl
  · have hs' : jsafeTrigger x = false := by simpa using hs
    obtain ⟨e, he⟩ := normalizeTrigger_err_of_unsafe (n := n) (d := d) hs'
    rw [he, hs']
    rfl

/-! ## Heartbeat lemmas -/

theorem heartbeatUpdates_mem : ∀ (t : Nat) (p x : Int),
    x ∈ heartbeatUpdates t p → p < x ∧ x ≤ 90 := by
  intro t
  induction t with
  | zero => intro p x hx; simp [heartbeatUpdates] at hx
  | succ m ih =>
    intro p x hx
    unfold heartbeatUpdates at hx
    by_cases hb : p + 5 ≤ 90
    · rw [if_pos hb] at hx
      cases hx with
      | head => omega
      | tail _ hmem =>
        obtain ⟨h1, h2⟩ := ih (p + 5) x hmem
        omega
    · rw [if_neg hb] at hx
      cases hx

theorem heartbeatUpdates_chain : ∀ (t : Nat) (p : Int),
    List.Chain' (· ≤ ·) (heartbeatUpdates t p) := by
  intro t
  induction t with
  | zero => intro p; simp [heartbeatUpdates]
  | succ m ih =>
    intro p
    unfold heartbeatUpdates
    by_cases hb : p + 5 ≤ 90
    · rw [if_pos hb]
      refine List.chain'_cons'.mpr ⟨?_, ih (p + 5)⟩
      intro y hy
      have hmem : y ∈ heartbeatUpdates m (p + 5) := by
        cases hh : heartbeatUpdates m (p + 5) with
        | nil => rw [hh] at hy; cases hy
        | cons a l =>
          rw [hh] at hy
          simp only [List.head?_cons, Option.mem_def, Option.some.injEq] at hy
          rw [← hy]
          exact List.mem_cons_self _ _
      exact le_of_lt (heartbeatUpdates_mem m (p + 5) y hmem).1
    · rw [if_neg hb]
      exact List.chain'_nil

/-! ## Case analysis of the runs -/

theorem statusRecord_buffer_none (now fileId status : String) (result : JVal)
    (progress : Int) (fileInfo : JVal) :
    getRaw (statusRecord now fileId status result progress fileInfo) "buffer" = none := rfl

theorem statusRecord_truthy (now fileId status : String) (result : JVal)
    (progress : Int) (fileInfo : JVal) :
    truthy (statusRecord now fileId status result progress fileInfo) = true := rfl

theorem statusOf_updateStatus (now : String) (store : Store)
    (fileId st : String) (res : JVal) (prog : Int) (fi : JVal) :
    statusOf (updateStatus now store fileId st res prog fi) fileId =
      some (jstr st) := by
  unfold statusOf updateStatus
  rw [lookupField_setField_self]
  rfl

theorem foldl_updateStatus_store (now fileId : String) (fi : JVal) :
    ∀ (l : List Int) (s : Store),
      (∃ st res prog fi0,
        lookupField s fileId = some (statusRecord now fileId st res prog fi0)) →
      ∃ st res prog fi0,
        lookupField
          (l.foldl (fun s p => updateStatus now s fileId "processing" jnull p fi) s)
          fileId = some (statusRecord now fileId st res prog fi0) := by
  intro l
  induction l with
  | nil => intro s hs; exact hs
  | cons p rest ih =>
    intro s _
    exact ih _ ⟨"processing", jnull, p, fi, lookupField_setField_self _ _ _⟩

theorem run_store (env : OrchEnv) (orc : Oracle) (ticks postTicks : Nat)
    (c : Clock) (store : Store) (fileId : String) :
    ∃ st res prog fi,
      lookupField
        (processQueuedFileRun env orc ticks postTicks c store fileId).store fileId =
        some (statusRecord c.now fileId st res prog fi) := by
  unfold processQueuedFileRun
  cases hL : lookupField store fileId with
  | none => exact ⟨_, _, _, _, lookupField_setField_self _ _ _⟩
  | some q =>
    try dsimp only
    by_cases h1 : truthy q = false
    · rw [if_pos h1]
      exact ⟨_, _, _, _, lookupField_setField_self _ _ _⟩
    · rw [if_neg h1]
      by_cases h2 : truthyO (getRaw q "buffer") = false
      · rw [if_pos h2]
        exact ⟨_, _, _, _, lookupField_setField_self _ _ _⟩
      · rw [if_neg h2]
        try dsimp only
        cases hOr : (orchestrate env orc).2 with
        | failed => exact ⟨_, _, _, _, lookupField_setField_self _ _ _⟩
        | mockCompleted => exact ⟨_, _, _, _, lookupField_setField_self _ _ _⟩
        | success payload =>
          try dsimp only
          cases hN : normalizeOcrDataTrigger c.nowMs c.today payload with
          | ok normalized => exact ⟨_, _, _, _, lookupField_setField_self _ _ _⟩
          | error e =>
            try dsimp only
            exact foldl_updateStatus_store c.now fileId jnull _ _
              ⟨"error", jobj [("message", jstr (raiseMsg e))], 0, jnull,
               lookupField_setField_self _ _ _⟩

theorem run_updates_trigger (env : OrchEnv) (orc : Oracle) (ticks postTicks : Nat)
    (c : Clock) (store : Store) (fileId : String) :
    updatesShape (processQueuedFileRun env orc ticks postTicks c store fileId).updates := by
  unfold processQueuedFileRun
  cases hL : lookupField store fileId with
  | none => exact Or.inl rfl
  | some q =>
    try dsimp only
    by_cases h1 : truthy q = false
    · rw [if_pos h1]
      exact Or.inl rfl
    · rw [if_neg h1]
      by_cases h2 : truthyO (getRaw q "buffer") = false
      · rw [if_pos h2]
        exact Or.inl rfl
      · rw [if_neg h2]
        try dsimp only
        cases hOr : (orchestrate env orc).2 with
        | failed =>
          refine Or.inr ⟨ticks, 0, 0, ("error", 0), Or.inr rfl, ?_⟩
          simp [finishError, heartbeatUpdates]
        | mockCompleted =>
          refine Or.inr ⟨ticks, 0, 0, ("completed", 100), Or.inl rfl, ?_⟩
          simp [finishCompleted, heartbeatUpdates]
        | success payload =>
          try dsimp only
          cases hN : normalizeOcrDataTrigger c.nowMs c.today payload with
          | ok normalized =>
            refine Or.inr ⟨ticks, 0, 0, ("completed", 100), Or.inl rfl, ?_⟩
            simp [finishCompleted, heartbeatUpdates]
          | error e =>
            exact Or.inr ⟨ticks, postTicks, heartbeatEnd ticks 0, ("error", 0),
              Or.inr rfl, rfl⟩

theorem run_updates_worker (env : OrchEnv) (orc : Oracle) (ticks postTicks : Nat)
    (c : Clock) (store : Store) (fileId filePath originalname : String) :
    updatesShape (processFileWorkerRun env orc ticks postTicks c store fileId
      filePath originalname).updates := by
  unfold processFileWorkerRun
  by_cases hm : env.useMockData = true
  · rw [if_pos hm]
    refine Or.inr ⟨0, 0, 0, ("completed", 100), Or.inl rfl, ?_⟩
    simp [heartbeatUpdates]
  · rw [if_neg hm]
    try dsimp only
    cases hOr : (orchestrate env orc).2 with
    | failed =>
      refine Or.inr ⟨ticks, 0, 0, ("error", 0), Or.inr rfl, ?_⟩
      simp [heartbeatUpdates]
    | mockCompleted =>
      refine Or.inr ⟨ticks, 0, 0, ("completed", 100), Or.inl rfl, ?_⟩
      simp [heartbeatUpdates]
    | success payload =>
      try dsimp only
      cases hN : normalizeOcrData c.nowMs c.today payload with
      | ok normalized =>
        refine Or.inr ⟨ticks, 0, 0, ("completed", 100), Or.inl rfl, ?_⟩
        simp [heartbeatUpdates]
      | error u =>
        exact Or.inr ⟨ticks, postTicks, heartbeatEnd ticks 0, ("error", 0),
          Or.inr rfl, rfl⟩

theorem heartbeat_pairs_chain (t : Nat) (term : String × Int)
    (hterm : term.1 ≠ "processing") :
    List.Chain' (fun a b : String × Int =>
        a.1 = "processing" → b.1 = "processing" → a.2 ≤ b.2)
      ((("processing", (0 : Int)) ::
        (heartbeatUpdates t 0).map fun p => ("processing", p)) ++ [term]) := by
  apply List.Chain'.append
  · refine List.chain'_cons'.mpr ⟨?_, ?_⟩
    · intro y hy
      intro _ _
      have : ∃ h, h ∈ heartbeatUpdates t 0 ∧ y = ("processing", h) := by
        cases hh : (heartbeatUpdates t 0).map (fun p => (("processing" : String), p)) with
        | nil => rw [hh] at hy; cases hy
        | cons a l =>
          rw [hh] at hy
          simp only [List.head?_cons, Option.mem_def, Option.some.injEq] at hy
          have ha : a ∈ (heartbeatUpdates t 0).map
              (fun p => (("processing" : String), p)) := by
            rw [hh]; exact List.mem_cons_self _ _
          obtain ⟨h, hmem, hfa⟩ := List.mem_map.mp ha
          exact ⟨h, hmem, by rw [← hy, ← hfa]⟩
      obtain ⟨h, hmem, hyeq⟩ := this
      rw [hyeq]
      exact le_of_lt (heartbeatUpdates_mem t 0 h hmem).1
    · refine List.chain'_map_of_chain' _ ?_ (heartbeatUpdates_chain t 0)
      intro a b hab _ _
      exact hab
  · exact List.chain'_singleton term
  · intro x _ y hy
    simp only [List.head?_cons, Option.mem_def, Option.some.injEq] at hy
    intro _ habs
    rw [hy] at hterm
    exact absurd habs hterm

theorem heartbeat_pairs_mem {t : Nat} {u : String × Int}
    (hu : u ∈ (("processing", (0 : Int)) ::
      (heartbeatUpdates t 0).map fun p => ("processing", p))) :
    u.1 = "processing" ∧ 0 ≤ u.2 ∧ u.2 ≤ 90 := by
  cases hu with
  | head => exact ⟨rfl, le_refl 0, by norm_num⟩
  | tail _ hmem =>
    obtain ⟨h, hmem2, hfa⟩ := List.mem_map.mp hmem
    obtain ⟨h1, h2⟩ := heartbeatUpdates_mem t 0 h hmem2
    rw [← hfa]
    exact ⟨rfl, le_of_lt h1, h2⟩

theorem heartbeat_map_mem {pt : Nat} {p0 : Int} {u : String × Int}
    (hu : u ∈ (heartbeatUpdates pt p0).map fun p => (("processing" : String), p)) :
    u.1 = "processing" ∧ u.2 ≤ 90 := by
  obtain ⟨x, hx, hfa⟩ := List.mem_map.mp hu
  rw [← hfa]
  exact ⟨rfl, (heartbeatUpdates_mem pt p0 x hx).2⟩

theorem updatesShape_props {us : List (String × Int)} (h : updatesShape us) :
    List.Chain' (fun a b : String × Int =>
      a.1 = "processing" → b.1 = "processing" → a.2 ≤ b.2) us ∧
    (∀ u ∈ us, u.1 = "processing" → u.2 < 100) ∧
    (∀ u ∈ us, u.1 = "error" → u.2 = 0) := by
  rcases h with h | ⟨t, pt, p0, term, hterm, h⟩
  · subst h
    refine ⟨List.chain'_singleton _, ?_, ?_⟩
    · intro u hu hp
      have hu' := List.mem_singleton.mp hu
      subst hu'
      exact absurd hp (by decide)
    · intro u hu _
      have hu' := List.mem_singleton.mp hu
      subst hu'
      rfl
  · subst h
    have hterm1 : term.1 ≠ "processing" := by
      rcases hterm with h1 | h1 <;> rw [h1] <;> decide
    refine ⟨?_, ?_, ?_⟩
    · apply List.Chain'.append (heartbeat_pairs_chain t term hterm1)
      · refine List.chain'_map_of_chain' _ ?_ (heartbeatUpdates_chain pt p0)
        intro a b hab _ _
        exact hab
      · intro x hx y hy
        rw [List.getLast?_concat] at hx
        simp only [Option.mem_def, Option.some.injEq] at hx
        intro habs _
        rw [hx] at hterm1
        exact absurd habs hterm1
    · intro u hu hp
      rcases List.mem_append.mp hu with hmem | hmem
      · rcases List.mem_append.mp hmem with hA | hT
        · obtain ⟨_, _, hle⟩ := heartbeat_pairs_mem hA
          omega
        · have hu' := List.mem_singleton.mp hT
          subst hu'
          exact absurd hp hterm1
      · obtain ⟨_, hle⟩ := heartbeat_map_mem hmem
        omega
    · intro u hu herr
      rcases List.mem_append.mp hu with hmem | hmem
      · rcases List.mem_append.mp hmem with hA | hT
        · obtain ⟨hp, _, _⟩ := heartbeat_pairs_mem hA
          rw [hp] at herr
          exact absurd herr (by decide)
        · have hu' := List.mem_singleton.mp hT
          subst hu'
          rcases hterm with h1 | h1
          · rw [h1] at herr
            exact absurd herr (by decide)
          · rw [h1]
      · obtain ⟨hp, _⟩ := heartbeat_map_mem hmem
        rw [hp] at herr
        exact absurd herr (by decide)

/-! ## Orchestration event lemmas -/

theorem countP_deleteTypeError_zero (p : OrchEvent → Bool)
    (hp : p OrchEvent.deleteTypeError = false) :
    ∀ n, List.countP p (List.replicate n OrchEvent.deleteTypeError) = 0 := by
  intro n
  induction n with
  | zero => rfl
  | succ k ih => simp [List.replicate_succ, List.countP_cons, hp, ih]

theorem orchestrate_calls_primary_fail {env : OrchEnv} {orc : Oracle}
    (h : orc.primaryOk 0 = false) :
    (orchestrate env orc).1 =
      OrchEvent.request env.primaryEndpoint true ::
        (List.replicate MAX_RETRIES OrchEvent.deleteTypeError ++
          (if env.primaryEndpoint = env.fallbackEndpoint then []
           else [OrchEvent.deleteTypeError])) := by
  unfold orchestrate
  rw [if_neg (by simp [h])]
  by_cases he : env.primaryEndpoint = env.fallbackEndpoint
  · rw [if_neg (by simp [he])]
    try dsimp only
    rw [if_pos he, List.append_nil]
  · rw [if_pos he]
    try dsimp only
    rw [if_neg he]

/-! ## Claim theorems -/

/-- C3 (code_bug): the claim — matching the code's own logging and comments —
says a failed primary attempt is retried up to `MAX_RETRIES = 2` more times,
each retry re-reading the file into fresh form data, before the fallback is
consulted.  In the code as written every retry iteration and the fallback
branch begin with `formData.delete('file')`, and the `form-data` package has
no `delete` method: the `TypeError` raised there aborts the iteration before
any `createReadStream` or `axios.post`.  Hence when the first attempt fails
the orchestration's event trace is one real request followed only by
`deleteTypeError` events — exactly one HTTP request is ever issued. -/
theorem C3_retry_budget {env : OrchEnv} {orc : Oracle}
    (h : orc.primaryOk 0 = false) :
    (orchestrate env orc).1 =
      OrchEvent.request env.primaryEndpoint true ::
        (List.replicate MAX_RETRIES OrchEvent.deleteTypeError ++
          (if env.primaryEndpoint = env.fallbackEndpoint then []
           else [OrchEvent.deleteTypeError])) ∧
    List.countP isRequest (orchestrate env orc).1 = 1 := by
  have hc := @orchestrate_calls_primary_fail env orc h
  refine ⟨hc, ?_⟩
  rw [hc]
  by_cases he : env.primaryEndpoint = env.fallbackEndpoint
  · rw [if_pos he]
    simp [List.countP_cons, List.countP_append, isRequest,
      countP_deleteTypeError_zero isRequest rfl]
  · rw [if_neg he]
    simp [List.countP_cons, List.countP_append, isRequest,
      countP_deleteTypeError_zero isRequest rfl]

/-- Witness for C3: a concrete failing-primary run against distinct
endpoints produces one request and three `formData.delete` raises. -/
theorem C3_witness :
    (orchestrate (OrchEnv.mk "http://primary" "http://fallback" false false)
        (Oracle.mk (fun _ => false) jnull false jnull "boom")).1 =
      OrchEvent.request "http://primary" true ::
        (List.replicate MAX_RETRIES OrchEvent.deleteTypeError ++
          [OrchEvent.deleteTypeError]) ∧
    List.countP isRequest
      (orchestrate (OrchEnv.mk "http://primary" "http://fallback" false false)
        (Oracle.mk (fun _ => false) jnull false jnull "boom")).1 = 1 := by
  have h := @C3_retry_budget
    (OrchEnv.mk "http://primary" "http://fallback" false false)
    (Oracle.mk (fun _ => false) jnull false jnull "boom") rfl
  refine ⟨?_, h.2⟩
  rw [h.1]
  rw [if_neg (by decide)]

/-- C4 (code_bug): the claim says that once the primary retries are
exhausted the fallback endpoint (when distinct) is tried exactly once.  In
the code as written the fallback branch dies at `formData.delete('file')`
before its `axios.post`: every event of the orchestration that is an actual
request targets the primary endpoint, and when the endpoints are distinct
and the first primary attempt fails, the number of requests received by the
fallback endpoint is zero, not one. -/
theorem C4_fallback_policy (env : OrchEnv) (orc : Oracle) :
    (∀ e ∈ (orchestrate env orc).1, isRequest e = true →
      e = OrchEvent.request env.primaryEndpoint true) ∧
    (env.fallbackEndpoint ≠ env.primaryEndpoint →
      orc.primaryOk 0 = false →
      List.countP (requestsTo env.fallbackEndpoint) (orchestrate env orc).1 = 0) := by
  constructor
  · intro e he hreq
    unfold orchestrate at he
    by_cases h0 : orc.primaryOk 0 = true
    · rw [if_pos h0] at he
      try dsimp only at he
      exact List.mem_singleton.mp he
    · rw [if_neg h0] at he
      by_cases hne : env.primaryEndpoint ≠ env.fallbackEndpoint
      · rw [if_pos hne] at he
        try dsimp only at he
        cases he with
        | head => rfl
        | tail _ hmem =>
          rcases List.mem_append.mp hmem with hmem | hmem
          · rw [List.eq_of_mem_replicate hmem] at hreq
            simp [isRequest] at hreq
          · rw [List.mem_singleton.mp hmem] at hreq
            simp [isRequest] at hreq
      · rw [if_neg hne] at he
        try dsimp only at he
        cases he with
        | head => rfl
        | tail _ hmem =>
          rw [List.eq_of_mem_replicate hmem] at hreq
          simp [isRequest] at hreq
  · intro hne h0
    rw [orchestrate_calls_primary_fail h0]
    rw [if_neg (Ne.symm hne)]
    have hreqf : requestsTo env.fallbackEndpoint
        (OrchEvent.request env.primaryEndpoint true) = false := by
      have hb : (env.primaryEndpoint == env.fallbackEndpoint) = false :=
        beq_eq_false_iff_ne.mpr (Ne.symm hne)
      simp [requestsTo, hb]
    have hdel : requestsTo env.fallbackEndpoint OrchEvent.deleteTypeError = false := rfl
    simp [List.countP_cons, List.countP_append, hreqf, hdel,
      countP_deleteTypeError_zero (requestsTo env.fallbackEndpoint) rfl]

/-- Witness for C4: with distinct endpoints and a failing primary, every
request of a concrete run targets the primary and the fallback receives
none. -/
theorem C4_witness :
    (∀ e ∈ (orchestrate (OrchEnv.mk "http://a" "http://b" false false)
        (Oracle.mk (fun _ => false) jnull false jnull "boom")).1,
      isRequest e = true → e = OrchEvent.request "http://a" true) ∧
    List.countP (requestsTo "http://b")
      (orchestrate (OrchEnv.mk "http://a" "http://b" false false)
        (Oracle.mk (fun _ => false) jnull false jnull "boom")).1 = 0 := by
  constructor
  · intro e he hr
    exact (C4_fallback_policy (OrchEnv.mk "http://a" "http://b" false false)
      (Oracle.mk (fun _ => false) jnull false jnull "boom")).1 e he hr
  · exact (C4_fallback_policy (OrchEnv.mk "http://a" "http://b" false false)
      (Oracle.mk (fun _ => false) jnull false jnull "boom")).2 (by decide) rfl

/-- C1 counterexample: the payload `{}` — a single object the success path
accepts — normalizes to a result whose `output` has no `tgl_jatuh_tempo`
field at all (the backfill pass never re-checks the due date), refuting the
claim that every result handed to a caller carries all four required
fields. -/
theorem C1_counterexample :
    normalizeOcrData 0 "2025-01-01" (jobj []) = .ok (jobj [("output", jobj
      [("items", jarr [] []),
       ("nomor_referensi", confPair (jstr (invPlaceholder 0)) true),
       ("nama_supplier", confPair (jstr "Unknown Supplier") false),
       ("tanggal_faktur", confPair (jstr "2025-01-01") false)])]) ∧
    lookupField
      [("items", jarr [] []),
       ("nomor_referensi", confPair (jstr (invPlaceholder 0)) true),
       ("nama_supplier", confPair (jstr "Unknown Supplier") false),
       ("tanggal_faktur", confPair (jstr "2025-01-01") false)]
      "tgl_jatuh_tempo" = none :=
  ⟨rfl, rfl⟩

/-- C1 (corrected): whenever normalization returns, the result carries a
truthy `output`, and whenever that `output` is itself an object (or array),
it carries truthy `nomor_referensi`, `nama_supplier` and `tanggal_faktur`
fields and an array `items`.  `tgl_jatuh_tempo` is not guaranteed (see the
counterexample), fields present upstream are adopted verbatim rather than
coerced to `{value, confidence}` pairs, and nothing is guaranteed when
`output` is a truthy primitive (the sloppy-mode writes are silent
no-ops). -/
theorem C1_normalized_shape {n : Nat} {d : String} {x r : JVal}
    (h : normalizeOcrData n d x = .ok r) :
    OutInv r ∧ fieldPost r :=
  ⟨(normalize_post h).1, (normalize_post h).2.1⟩

/-- Witness for C1: the guarantee evaluated on the normalization of `{}`. -/
theorem C1_witness :
    OutInv (jobj [("output", jobj
      [("items", jarr [] []),
       ("nomor_referensi", confPair (jstr (invPlaceholder 0)) true),
       ("nama_supplier", confPair (jstr "Unknown Supplier") false),
       ("tanggal_faktur", confPair (jstr "2025-01-01") false)])]) ∧
    fieldPost (jobj [("output", jobj
      [("items", jarr [] []),
       ("nomor_referensi", confPair (jstr (invPlaceholder 0)) true),
       ("nama_supplier", confPair (jstr "Unknown Supplier") false),
       ("tanggal_faktur", confPair (jstr "2025-01-01") false)])]) :=
  C1_normalized_shape (n := 0) (d := "2025-01-01") (x := jobj []) rfl

/-- C6 (confirmed): normalization is idempotent: re-running the normalizer
on an already-normalized result returns it unchanged, for any pair of clock
readings.  The side condition `topLevelJson` (top-level array elements carry
no named array properties) holds for every payload produced by `JSON.parse`,
hence for everything the OCR endpoint can deliver. -/
theorem C6_normalize_idempotent {n n' : Nat} {d d' : String} {x r : JVal}
    (hjson : topLevelJson x = true)
    (h : normalizeOcrData n d x = .ok r) :
    normalizeOcrData n' d' r = .ok r := by
  obtain ⟨hInv, hpost, hjobj⟩ := normalize_post h
  obtain ⟨fs, hfs⟩ := hjobj hjson
  exact normalize_fixpoint hfs hInv hpost n' d'

/-- Witness for C6: re-normalizing the normalization of `{}` under a
different clock is a no-op. -/
theorem C6_witness :
    normalizeOcrData 7 "2030-12-31" (jobj [("output", jobj
      [("items", jarr [] []),
       ("nomor_referensi", confPair (jstr (invPlaceholder 0)) true),
       ("nama_supplier", confPair (jstr "Unknown Supplier") false),
       ("tanggal_faktur", confPair (jstr "2025-01-01") false)])]) =
    .ok (jobj [("output", jobj
      [("items", jarr [] []),
       ("nomor_referensi", confPair (jstr (invPlaceholder 0)) true),
       ("nama_supplier", confPair (jstr "Unknown Supplier") false),
       ("tanggal_faktur", confPair (jstr "2025-01-01") false)])]) :=
  C6_normalize_idempotent (n := 0) (d := "2025-01-01") (x := jobj []) rfl rfl

/-- C7 counterexample: normalizing `{}` forces the backfill pass to
synthesize the invoice-date placeholder, and it is marked
`is_confident: false` — not `true` as the claim states for date-kind
placeholders (lines 323–328 of the source). -/
theorem C7_counterexample :
    normalizeOcrData 0 "2025-01-01" (jobj []) = .ok (jobj [("output", jobj
      [("items", jarr [] []),
       ("nomor_referensi", confPair (jstr (invPlaceholder 0)) true),
       ("nama_supplier", confPair (jstr "Unknown Supplier") false),
       ("tanggal_faktur", confPair (jstr "2025-01-01") false)])]) ∧
    lookupField
      [("items", jarr [] []),
       ("nomor_referensi", confPair (jstr (invPlaceholder 0)) true),
       ("nama_supplier", confPair (jstr "Unknown Supplier") false),
       ("tanggal_faktur", confPair (jstr "2025-01-01") false)]
      "tanggal_faktur" =
      some (jobj [("value", jstr "2025-01-01"), ("is_confident", jbool false)]) :=
  ⟨rfl, rfl⟩

/-- C7 (corrected): in the backfill pass only the reference-number
placeholder is marked `is_confident: true` (against `false` in the merge
pass); the invoice-date placeholder is `is_confident: false` in both passes,
and the due date is never backfilled at all.  Exhibited by normalizing the
single object `{}` (backfill pass) and the array `[{}]` (merge pass) under
an arbitrary clock. -/
theorem C7_backfill_confidence (nowMs : Nat) (today : String) :
    normalizeOcrData nowMs today (jobj []) = .ok (jobj [("output", jobj
      [("items", jarr [] []),
       ("nomor_referensi", confPair (jstr (invPlaceholder nowMs)) true),
       ("nama_supplier", confPair (jstr "Unknown Supplier") false),
       ("tanggal_faktur", confPair (jstr today) false)])]) ∧
    normalizeOcrData nowMs today (jarr [jobj []] []) = .ok (jobj [("output", jobj
      [("nomor_referensi", confPair (jstr (invPlaceholder nowMs)) false),
       ("nama_supplier", confPair (jstr "Unknown Supplier") false),
       ("tanggal_faktur", confPair (jstr today) false),
       ("tgl_jatuh_tempo", confPair (jstr "") false),
       ("items", jarr [] [])])]) :=
  ⟨rfl, rfl⟩

/-- C2 counterexample: triggering the unknown id `job-1` on an empty Status
Store rejects with the not-found error but also *creates* an error-status
record for that id — the catch handler calls `updateStatus` before
rejecting (lines 896–900) — refuting "the Status Store is left
unchanged". -/
theorem C2_counterexample :
    (processQueuedFileRun (OrchEnv.mk "http://a" "http://b" false false)
      (Oracle.mk (fun _ => false) jnull false jnull "boom") 0 0
      (Clock.mk "T" "T" 0 "D") [] "job-1").outcome =
      .error "No queued file found with ID: job-1" ∧
    lookupField (processQueuedFileRun (OrchEnv.mk "http://a" "http://b" false false)
      (Oracle.mk (fun _ => false) jnull false jnull "boom") 0 0
      (Clock.mk "T" "T" 0 "D") [] "job-1").store "job-1" =
      some (statusRecord "T" "job-1" "error"
        (jobj [("message", jstr "No queued file found with ID: job-1")]) 0 jnull) :=
  ⟨rfl, rfl⟩

/-- C2 (corrected): a `processQueuedFile` call whose id is absent from the
Status Store — or whose stored record carries no buffer — rejects with the
corresponding not-found error; but the Store is *not* left unchanged: the
catch handler overwrites the record for that id with an error-status record
(creating one if absent) before rejecting. -/
theorem C2_trigger_not_found (env : OrchEnv) (orc : Oracle)
    (ticks postTicks : Nat) (c : Clock) (store : Store) (fileId : String) :
    (lookupField store fileId = none →
      (processQueuedFileRun env orc ticks postTicks c store fileId).outcome =
        .error ("No queued file found with ID: " ++ fileId) ∧
      (processQueuedFileRun env orc ticks postTicks c store fileId).store =
        setField store fileId (statusRecord c.now fileId "error"
          (jobj [("message", jstr ("No queued file found with ID: " ++ fileId))])
          0 jnull)) ∧
    (∀ q, lookupField store fileId = some q → truthy q = true →
      truthyO (getRaw q "buffer") = false →
      (processQueuedFileRun env orc ticks postTicks c store fileId).outcome =
        .error ("File buffer not found for ID: " ++ fileId) ∧
      (processQueuedFileRun env orc ticks postTicks c store fileId).store =
        setField store fileId (statusRecord c.now fileId "error"
          (jobj [("message", jstr ("File buffer not found for ID: " ++ fileId))])
          0 jnull)) := by
  constructor
  · intro h
    unfold processQueuedFileRun
    rw [h]
    exact ⟨rfl, rfl⟩
  · intro q hq hqt hb
    unfold processQueuedFileRun
    rw [hq]
    dsimp only
    rw [if_neg (by simp [hqt]), if_pos hb]
    exact ⟨rfl, rfl⟩

/-- Witness for C2: the not-found branch evaluated on the empty store. -/
theorem C2_witness :
    (processQueuedFileRun (OrchEnv.mk "http://a" "http://b" false false)
      (Oracle.mk (fun _ => false) jnull false jnull "boom") 2 0
      (Clock.mk "T" "T" 0 "D") [] "job-9").outcome =
      .error ("No queued file found with ID: " ++ "job-9") ∧
    (processQueuedFileRun (OrchEnv.mk "http://a" "http://b" false false)
      (Oracle.mk (fun _ => false) jnull false jnull "boom") 2 0
      (Clock.mk "T" "T" 0 "D") [] "job-9").store =
      setField [] "job-9" (statusRecord "T" "job-9" "error"
        (jobj [("message", jstr ("No queued file found with ID: " ++ "job-9"))])
        0 jnull) :=
  (C2_trigger_not_found (OrchEnv.mk "http://a" "http://b" false false)
    (Oracle.mk (fun _ => false) jnull false jnull "boom") 2 0
    (Clock.mk "T" "T" 0 "D") [] "job-9").1 rfl

/-- C5 counterexample: two buffered jobs triggered against an endpoint whose
first attempt *succeeds*.  Payload `null` ends in the `error` state via the
normalizer's `processedOcrData.output` `TypeError`; payload `[]` — an array
with no `output`-bearing element — ends in the `error` state via the
`ReferenceError` raised because `findPropertyInArray` is a function
declaration local to the queue worker callback and is not in scope in
`processQueuedFile` (merge branch, lines 810–827).  This refutes "a
malformed payload never causes a job to terminate in the error state". -/
theorem C5_counterexample :
    (processQueuedFileRun (OrchEnv.mk "http://a" "http://b" false false)
      (Oracle.mk (fun _ => true) jnull false jnull "boom") 0 0
      (Clock.mk "T" "T" 0 "D")
      (queueBuffer "T" [] "job-1" 3 "inv.jpg" "image/jpeg") "job-1").outcome =
      .error "TypeError" ∧
    statusOf (processQueuedFileRun (OrchEnv.mk "http://a" "http://b" false false)
      (Oracle.mk (fun _ => true) jnull false jnull "boom") 0 0
      (Clock.mk "T" "T" 0 "D")
      (queueBuffer "T" [] "job-1" 3 "inv.jpg" "image/jpeg") "job-1").store
      "job-1" = some (jstr "error") ∧
    (processQueuedFileRun (OrchEnv.mk "http://a" "http://b" false false)
      (Oracle.mk (fun _ => true) (jarr [] []) false jnull "boom") 0 0
      (Clock.mk "T" "T" 0 "D")
      (queueBuffer "T" [] "job-2" 3 "inv.jpg" "image/jpeg") "job-2").outcome =
      .error "findPropertyInArray is not defined" ∧
    statusOf (processQueuedFileRun (OrchEnv.mk "http://a" "http://b" false false)
      (Oracle.mk (fun _ => true) (jarr [] []) false jnull "boom") 0 0
      (Clock.mk "T" "T" 0 "D")
      (queueBuffer "T" [] "job-2" 3 "inv.jpg" "image/jpeg") "job-2").store
      "job-2" = some (jstr "error") :=
  ⟨rfl, rfl, rfl, rfl⟩

/-- C5 (corrected): on a first-attempt-successful trigger run, the job
completes exactly when the payload is `jsafeTrigger`-safe: anything except
`null` itself and arrays that fail to yield an `output`-bearing element —
arrays reaching a `null` element first raise a `TypeError`, and arrays with
no `output`-bearing element at all (including `[]`) raise a
`ReferenceError` because `findPropertyInArray` is out of scope in
`processQueuedFile`.  Safe payloads (primitives, objects of any shape,
arrays adopting an `output`-bearing element) are absorbed by the defaulting
rules and the job completes; unsafe ones raise inside the normalizer, the
catch writes the error record, and the run rejects. -/
theorem C5_absorb_or_raise (env : OrchEnv) (orc : Oracle)
    (ticks postTicks : Nat) (c : Clock) (store : Store) (fileId : String)
    (q : JVal) (hq : lookupField store fileId = some q) (hqt : truthy q = true)
    (hb : truthyO (getRaw q "buffer") = true) (h0 : orc.primaryOk 0 = true) :
    exOk (normalizeOcrDataTrigger c.nowMs c.today orc.primaryResp) =
      jsafeTrigger orc.primaryResp ∧
    (jsafeTrigger orc.primaryResp = true →
      ∃ r, (processQueuedFileRun env orc ticks postTicks c store fileId).outcome =
          .ok r ∧
        statusOf (processQueuedFileRun env orc ticks postTicks c store
          fileId).store fileId = some (jstr "completed")) ∧
    (jsafeTrigger orc.primaryResp = false →
      ∃ msg,
        (processQueuedFileRun env orc ticks postTicks c store fileId).outcome =
          .error msg ∧
        ("error", (0 : Int)) ∈
          (processQueuedFileRun env orc ticks postTicks c store fileId).updates) := by
  have hOrch : (orchestrate env orc).2 = .success orc.primaryResp := by
    unfold orchestrate
    rw [if_pos h0]
  refine ⟨exOk_normalizeTrigger _ _ _, ?_, ?_⟩
  · intro hj
    obtain ⟨r, hr⟩ := normalizeTrigger_ok_of_safe (n := c.nowMs) (d := c.today) hj
    unfold processQueuedFileRun
    rw [hq]
    try dsimp only
    rw [if_neg (by simp [hqt]), if_neg (by simp [hb])]
    try dsimp only
    rw [hOrch]
    try dsimp only
    rw [hr]
    try dsimp only
    exact ⟨_, rfl, statusOf_updateStatus _ _ _ _ _ _ _⟩
  · intro hj
    obtain ⟨e, he⟩ := normalizeTrigger_err_of_unsafe (n := c.nowMs) (d := c.today) hj
    unfold processQueuedFileRun
    rw [hq]
    try dsimp only
    rw [if_neg (by simp [hqt]), if_neg (by simp [hb])]
    try dsimp only
    rw [hOrch]
    try dsimp only
    rw [he]
    try dsimp only
    refine ⟨raiseMsg e, rfl, ?_⟩
    exact List.mem_append.mpr (Or.inl (List.mem_append.mpr
      (Or.inr (List.mem_singleton.mpr rfl))))

/-- Witness for C5: a buffered job whose first attempt delivers the safe
payload `{}` completes. -/
theorem C5_witness :
    statusOf (processQueuedFileRun (OrchEnv.mk "http://a" "http://b" false false)
      (Oracle.mk (fun _ => true) (jobj []) false jnull "boom") 1 0
      (Clock.mk "T" "T" 0 "D")
      (queueBuffer "T" [] "job-1" 3 "inv.jpg" "image/jpeg") "job-1").store
      "job-1" = some (jstr "completed") := by
  obtain ⟨-, hsafe, -⟩ :=
    C5_absorb_or_raise (OrchEnv.mk "http://a" "http://b" false false)
      (Oracle.mk (fun _ => true) (jobj []) false jnull "boom") 1 0
      (Clock.mk "T" "T" 0 "D")
      (queueBuffer "T" [] "job-1" 3 "inv.jpg" "image/jpeg") "job-1"
      (jobj [("id", jstr "job-1"), ("originalFilename", jstr "inv.jpg"),
             ("status", jstr "queued"), ("mimetype", jstr "image/jpeg"),
             ("queuedAt", jstr "T"), ("buffer", jbuf 3), ("dataSize", jnum 3),
             ("results", jnull), ("error", jnull)])
      rfl rfl rfl rfl
  obtain ⟨r, -, hst⟩ := hsafe rfl
  exact hst

/-- C8 counterexample: the synthetic record for a never-submitted id carries
only `{id, status, progress}` — no `result`, `fileInfo` or `updatedAt` — and
the record of a buffer-submitted, not-yet-triggered job has the `queueBuffer`
shape with nine different keys (no `progress`, `result`, `fileInfo` or
`updatedAt`), refuting the claimed exact six-field shape. -/
theorem C8_counterexample :
    keysOf (getFileStatus [] "missing") = ["id", "status", "progress"] ∧
    keysOf (getFileStatus
        (queueBuffer "T" [] "b1" 3 "f.png" "image/png") "b1") =
      ["id", "originalFilename", "status", "mimetype", "queuedAt", "buffer",
       "dataSize", "results", "error"] :=
  ⟨rfl, rfl⟩

/-- C8 (corrected): `getFileStatus` returns the six-field
`{id, status, result, progress, fileInfo, updatedAt}` record exactly for
jobs that have passed through `updateStatus`; for unknown ids it returns the
three-field synthetic `not_found` record, and for buffer-queued untriggered
jobs the nine-field `queueBuffer` record. -/
theorem C8_status_shapes (store : Store) (fileId now st fn mt : String)
    (res fi : JVal) (prog : Int) (bufLen : Nat) :
    (lookupField store fileId = none →
      getFileStatus store fileId =
        jobj [("id", jstr fileId), ("status", jstr "not_found"),
              ("progress", jnum 0)]) ∧
    getFileStatus (updateStatus now store fileId st res prog fi) fileId =
      statusRecord now fileId st res prog fi ∧
    getFileStatus (queueBuffer now store fileId bufLen fn mt) fileId =
      jobj [("id", jstr fileId), ("originalFilename", jstr fn),
            ("status", jstr "queued"), ("mimetype", jstr mt),
            ("queuedAt", jstr now), ("buffer", jbuf bufLen),
            ("dataSize", jnum bufLen), ("results", jnull),
            ("error", jnull)] := by
  refine ⟨?_, ?_, ?_⟩
  · intro h
    unfold getFileStatus
    rw [h]
  · unfold getFileStatus updateStatus
    rw [lookupField_setField_self]
  · unfold getFileStatus queueBuffer
    rw [lookupField_setField_self]

/-- Witness for C8: the synthetic record on the empty store. -/
theorem C8_witness :
    getFileStatus ([] : Store) "x" =
      jobj [("id", jstr "x"), ("status", jstr "not_found"),
            ("progress", jnum 0)] :=
  (C8_status_shapes [] "x" "T" "queued" "f.png" "image/png" jnull jnull 0 3).1 rfl

/-- C9 (confirmed): over the `(status, progress)` sequence a job's record
receives — whether the job runs through the queue worker callback or through
a deferred `processQueuedFile` trigger, and including the `processing`
writes the leaked heartbeat makes after an error settles (the catch handlers
never clear `progressInterval`) — progress never decreases between
consecutive `processing` writes, every `processing` write stays below 100
(the heartbeat caps at 90), and every write entering the `error` state
records progress 0. -/
theorem C9_progress_monotone (env : OrchEnv) (orc : Oracle)
    (ticks postTicks : Nat) (c : Clock) (store : Store)
    (fileId filePath originalname : String) :
    (List.Chain' (fun a b : String × Int =>
        a.1 = "processing" → b.1 = "processing" → a.2 ≤ b.2)
      (processQueuedFileRun env orc ticks postTicks c store fileId).updates ∧
     (∀ u ∈ (processQueuedFileRun env orc ticks postTicks c store fileId).updates,
        u.1 = "processing" → u.2 < 100) ∧
     (∀ u ∈ (processQueuedFileRun env orc ticks postTicks c store fileId).updates,
        u.1 = "error" → u.2 = 0)) ∧
    (List.Chain' (fun a b : String × Int =>
        a.1 = "processing" → b.1 = "processing" → a.2 ≤ b.2)
      (processFileWorkerRun env orc ticks postTicks c store fileId
        filePath originalname).updates ∧
     (∀ u ∈ (processFileWorkerRun env orc ticks postTicks c store fileId
        filePath originalname).updates, u.1 = "processing" → u.2 < 100) ∧
     (∀ u ∈ (processFileWorkerRun env orc ticks postTicks c store fileId
        filePath originalname).updates, u.1 = "error" → u.2 = 0)) :=
  ⟨updatesShape_props (run_updates_trigger env orc ticks postTicks c store fileId),
   updatesShape_props (run_updates_worker env orc ticks postTicks c store fileId
     filePath originalname)⟩

/-- Witness for C9: a concrete trigger run that errors with one heartbeat
tick before the error and one leaked tick after it — its update sequence
satisfies the chain property, and the leaked `("processing", 10)` write it
contains is below 100. -/
theorem C9_witness :
    List.Chain' (fun a b : String × Int =>
      a.1 = "processing" → b.1 = "processing" → a.2 ≤ b.2)
      (processQueuedFileRun (OrchEnv.mk "http://a" "http://b" false false)
        (Oracle.mk (fun _ => true) jnull false jnull "boom") 1 1
        (Clock.mk "T" "T" 0 "D")
        (queueBuffer "T" [] "job-1" 3 "inv.jpg" "image/jpeg") "job-1").updates ∧
    ((("processing", (10 : Int)) : String × Int).2 < 100) := by
  constructor
  · exact (C9_progress_monotone (OrchEnv.mk "http://a" "http://b" false false)
      (Oracle.mk (fun _ => true) jnull false jnull "boom") 1 1
      (Clock.mk "T" "T" 0 "D")
      (queueBuffer "T" [] "job-1" 3 "inv.jpg" "image/jpeg") "job-1" "p" "f").1.1
  · exact (C9_progress_monotone (OrchEnv.mk "http://a" "http://b" false false)
      (Oracle.mk (fun _ => true) jnull false jnull "boom") 1 1
      (Clock.mk "T" "T" 0 "D")
      (queueBuffer "T" [] "job-1" 3 "inv.jpg" "image/jpeg") "job-1" "p" "f").1.2.1
      ("processing", 10) (by decide) rfl

/-- C10 (confirmed): every `processQueuedFile` run — including one whose
error record is later overwritten by leaked heartbeat writes — finishes with
the job's Status Store record in `updateStatus` shape, which carries no
`buffer` field; hence any subsequent `processQueuedFile` call on the
resulting store for the same id rejects with the buffer-not-found error. -/
theorem C10_buffer_consumed (env env' : OrchEnv) (orc orc' : Oracle)
    (ticks ticks' postTicks postTicks' : Nat) (c c' : Clock) (store : Store)
    (fileId : String) :
    (∃ fs, lookupField
        (processQueuedFileRun env orc ticks postTicks c store fileId).store
        fileId = some (jobj fs) ∧ lookupField fs "buffer" = none) ∧
    (processQueuedFileRun env' orc' ticks' postTicks' c'
      (processQueuedFileRun env orc ticks postTicks c store fileId).store
      fileId).outcome =
      .error ("File buffer not found for ID: " ++ fileId) := by
  obtain ⟨st, res, prog, fi, hlk⟩ := run_store env orc ticks postTicks c store fileId
  constructor
  · exact ⟨_, hlk, rfl⟩
  · generalize hG :
      (processQueuedFileRun env orc ticks postTicks c store fileId).store = s2
      at hlk ⊢
    unfold processQueuedFileRun
    rw [hlk]
    dsimp only
    rw [if_neg (by simp [statusRecord, truthy])]
    rw [if_pos (show truthyO (getRaw
      (statusRecord c.now fileId st res prog fi) "buffer") = false from rfl)]
    rfl

end QueueService
